import Mathlib

/-!
Verification development for the indicator computation and signal
detection engine of the `roadtorunway` repository.

The Python source (src/indicators.py, src/app.py) works over pandas
DataFrames whose columns are float series with NaN marking undefined
entries.  We embed a column as `List (Option ℚ)`: `none` is NaN, and
pandas' comparison semantics (any comparison against NaN is False) is
reflected in the `oLT`/`oLE`/`oGT`/`oGE`/`oEQ` helpers.  A DataFrame is a
`Frame`: a date index plus named columns.  TA-Lib indicator calls are
embedded by their documented formulas over exact rationals (the one
irrational operation, the standard deviation's square root inside
`ta.BBANDS`, is idealised by the computable `Rat.sqrt`; no theorem below
depends on Bollinger values).  Each embedded definition is named after
the source symbol it translates.
-/

namespace RoadToRunway

/-- One pandas column: position-aligned optional rationals (NaN = `none`). -/
abbrev Series := List (Option ℚ)

/-- Value of a series at a position: `none` when out of bounds or NaN. -/
def oget (s : Series) (i : ℕ) : Option ℚ := s[i]?.join

/-- `pandas.Series.shift(k)`: position `i` receives the value of
position `i - k`, the first `k` positions become NaN; length kept. -/
def shiftS (k : ℕ) (s : Series) : Series :=
  (List.range s.length).map (fun i => if i < k then none else oget s (i - k))

/-- Element-wise unary arithmetic on a column (NaN propagates). -/
def mapS (f : ℚ → ℚ) (s : Series) : Series := s.map (Option.map f)

/-- Element-wise binary arithmetic on two aligned columns (NaN propagates;
positions missing on either side are NaN, as in pandas index alignment). -/
def zipS (f : ℚ → ℚ → ℚ) (a b : Series) : Series :=
  (List.range (max a.length b.length)).map (fun i => do
    let x ← oget a i
    let y ← oget b i
    pure (f x y))

/-- pandas `<` on optional values: any comparison with NaN is False. -/
def oLT (x y : Option ℚ) : Bool :=
  match x, y with
  | some a, some b => decide (a < b)
  | _, _ => false

/-- pandas `<=` on optional values. -/
def oLE (x y : Option ℚ) : Bool :=
  match x, y with
  | some a, some b => decide (a ≤ b)
  | _, _ => false

/-- pandas `>` on optional values. -/
def oGT (x y : Option ℚ) : Bool :=
  match x, y with
  | some a, some b => decide (b < a)
  | _, _ => false

/-- pandas `>=` on optional values. -/
def oGE (x y : Option ℚ) : Bool :=
  match x, y with
  | some a, some b => decide (b ≤ a)
  | _, _ => false

/-- pandas `==` on optional values (`NaN == x` is False, even for `x` NaN). -/
def oEQ (x y : Option ℚ) : Bool :=
  match x, y with
  | some a, some b => decide (a = b)
  | _, _ => false

/-- Mean of a finite window. -/
def meanL (l : List ℚ) : ℚ := l.sum / l.length

/-- Maximum of a finite window (0 for the empty window, never used). -/
def maxL (l : List ℚ) : ℚ := l.foldr max (l.headI)

/-- Minimum of a finite window. -/
def minL (l : List ℚ) : ℚ := l.foldr min (l.headI)

/-- The window of width `w` ending at position `i`, provided it is fully
inside the series and free of NaN; `none` otherwise.  This is pandas
`rolling(window=w)` with its default `min_periods = w`. -/
def windowAt (w : ℕ) (s : Series) (i : ℕ) : Option (List ℚ) :=
  if i + 1 < w then none
  else
    let vs := (s.drop (i + 1 - w)).take w
    if vs.length = w ∧ vs.all Option.isSome then some vs.reduceOption else none

/-- `pandas.Series.rolling(window=w).agg(f)` with default `min_periods`:
NaN until `w` observations are available, NaN whenever the window
contains a NaN. -/
def rollingS (f : List ℚ → ℚ) (w : ℕ) (s : Series) : Series :=
  (List.range s.length).map (fun i => (windowAt w s i).map f)

/-! ### TA-Lib indicator functions

Each definition below embeds one `ta.*` call made by
`calculate_all_indicators`, by the TA-Lib formula and with the TA-Lib
lookback (number of leading NaN outputs) for the default unstable
period 0. -/

/-- Totalise a column; only read at positions the caller knows are defined. -/
def toRaw (s : Series) : List ℚ := s.map (fun o => o.getD 0)

/-- Difference `x i - x (i-1)` of a raw series. -/
def diffAt (xs : List ℚ) (i : ℕ) : ℚ := xs.getD i 0 - xs.getD (i - 1) 0

/-- Exponential moving average value at bar `i ≥ w - 1`: SMA seed over the
first `w` bars, then `e i = α x i + (1 - α) e (i-1)` with `α = 2/(w+1)`. -/
def emaVal (w : ℕ) (xs : List ℚ) : ℕ → ℚ
  | 0 => meanL (xs.take w)
  | i + 1 =>
    if i + 2 ≤ w then meanL (xs.take w)
    else (2 / ((w : ℚ) + 1)) * xs.getD (i + 1) 0
         + (1 - 2 / ((w : ℚ) + 1)) * emaVal w xs i

/-- EMA over a raw (NaN-free) series: NaN for the first `w - 1` bars. -/
def emaList (w : ℕ) (xs : List ℚ) : Series :=
  (List.range xs.length).map (fun i =>
    if i + 1 < w then none else some (emaVal w xs i))

/-- `ta.EMA`: leading NaN of the input are skipped (TA-Lib starts at the
first defined input bar) and the EMA recurrence runs on the rest. -/
def EMA (w : ℕ) (s : Series) : Series :=
  let k := (s.takeWhile Option.isNone).length
  List.replicate k none ++ emaList w (toRaw (s.drop k))

/-- `ta.SMA`. -/
def SMA (w : ℕ) (s : Series) : Series := rollingS meanL w s

/-- Linearly weighted mean of a window (weights 1..w oldest-to-newest). -/
def wmaL (l : List ℚ) : ℚ :=
  ((l.enum.map (fun p => ((p.1 : ℚ) + 1) * p.2)).sum) /
    (((l.length : ℚ) * ((l.length : ℚ) + 1)) / 2)

/-- `ta.WMA`. -/
def WMA (w : ℕ) (s : Series) : Series := rollingS wmaL w s

/-- Positive part of a price change. -/
def gainOf (d : ℚ) : ℚ := if 0 < d then d else 0

/-- Negative part of a price change, as a positive magnitude. -/
def lossOf (d : ℚ) : ℚ := if d < 0 then -d else 0

/-- Wilder average gain/loss pair at bar `i ≥ w`: seeded by the plain
average of the first `w` changes, then Wilder-smoothed. -/
def wilderPair (w : ℕ) (xs : List ℚ) : ℕ → ℚ × ℚ
  | 0 => (meanL ((List.range w).map fun j => gainOf (diffAt xs (j + 1))),
          meanL ((List.range w).map fun j => lossOf (diffAt xs (j + 1))))
  | i + 1 =>
    if i + 1 ≤ w then
      (meanL ((List.range w).map fun j => gainOf (diffAt xs (j + 1))),
       meanL ((List.range w).map fun j => lossOf (diffAt xs (j + 1))))
    else
      let p := wilderPair w xs i
      ((p.1 * ((w : ℚ) - 1) + gainOf (diffAt xs (i + 1))) / w,
       (p.2 * ((w : ℚ) - 1) + lossOf (diffAt xs (i + 1))) / w)

/-- `ta.RSI`: NaN for the first `w` bars (TA-Lib lookback is the period
itself), then `100 · ag / (ag + al)` with the zero-denominator guard. -/
def RSI (w : ℕ) (s : Series) : Series :=
  (List.range s.length).map (fun i =>
    if i < w then none
    else some
      (let p := wilderPair w (toRaw s) i
       if p.1 + p.2 = 0 then 0 else 100 * p.1 / (p.1 + p.2)))

/-- Raw stochastic %K of a close against high/low ranges. -/
def stochFastK (wk : ℕ) (high low close : Series) : Series :=
  (List.range close.length).map (fun i => do
    let hh ← (windowAt wk high i).map maxL
    let ll ← (windowAt wk low i).map minL
    let c ← oget close i
    pure (if hh - ll = 0 then 0 else 100 * (c - ll) / (hh - ll)))

/-- `ta.STOCH` with `slowk_matype = slowd_matype = 0` (SMA smoothing):
returns `(slowk, slowd)`. -/
def STOCH (wk wsk wsd : ℕ) (high low close : Series) : Series × Series :=
  let slowk := rollingS meanL wsk (stochFastK wk high low close)
  (slowk, rollingS meanL wsd slowk)

/-- `ta.MACD`: fast EMA minus slow EMA, with the signal line an EMA of
that difference; TA-Lib aligns all outputs to the signal's lookback
`(slow - 1) + (sig - 1)`. -/
def MACD (fast slow sig : ℕ) (s : Series) : Series × Series :=
  let diff := zipS (fun a b => a - b) (EMA fast s) (EMA slow s)
  let signal := EMA sig diff
  ((List.range s.length).map (fun i =>
      if i < (slow - 1) + (sig - 1) then none else oget diff i),
   signal)

/-- Population variance of a window. -/
def varL (l : List ℚ) : ℚ := meanL (l.map (fun x => x ^ 2)) - (meanL l) ^ 2

/-- `ta.BBANDS` with `matype = 0`: middle SMA ± deviation multiples of the
population standard deviation.  The square root is idealised by the
computable `Rat.sqrt`; no theorem below depends on these values.
Returns `(upper, lower)`, the two outputs the source keeps. -/
def BBANDS (w : ℕ) (up dn : ℚ) (s : Series) : Series × Series :=
  let mid := rollingS meanL w s
  let sd := rollingS (fun l => Rat.sqrt (varL l)) w s
  (zipS (fun m d => m + up * d) mid sd, zipS (fun m d => m - dn * d) mid sd)

/-- One step of the parabolic SAR state machine: emits today's SAR, then
advances `(direction, sar, extreme point, acceleration)`. -/
def sarRun (acc amax : ℚ) :
    Bool → ℚ → ℚ → ℚ → List (ℚ × ℚ) → List (Option ℚ)
  | _, _, _, _, [] => []
  | long, sar, ep, af, (hi, lo) :: rest =>
    if long then
      if lo ≤ sar then
        let s0 := max ep hi
        some s0 :: sarRun acc amax false (s0 + acc * (lo - s0)) lo acc rest
      else
        let nep := if ep < hi then hi else ep
        let naf := if ep < hi then min amax (af + acc) else af
        some sar :: sarRun acc amax true (sar + naf * (nep - sar)) nep naf rest
    else
      if sar ≤ hi then
        let s0 := min ep lo
        some s0 :: sarRun acc amax true (s0 + acc * (hi - s0)) hi acc rest
      else
        let nep := if lo < ep then lo else ep
        let naf := if lo < ep then min amax (af + acc) else af
        some sar :: sarRun acc amax false (sar + naf * (nep - sar)) nep naf rest

/-- `ta.SAR` (acceleration 0.02, maximum 0.2 at the call site): Wilder's
parabolic stop-and-reverse; initial direction from the first two bars'
directional movement, first output at bar 1.  TA-Lib's additional
clamping of the SAR to the prior bars' extremes is idealised away; no
theorem below depends on SAR values. -/
def SAR (acc amax : ℚ) (high low : Series) : Series :=
  match toRaw high, toRaw low with
  | h0 :: h1 :: hs, l0 :: l1 :: ls =>
    if l0 - l1 ≤ h1 - h0 then
      none :: sarRun acc amax true l0 h1 acc ((h1, l1) :: hs.zip ls)
    else
      none :: sarRun acc amax false h0 l1 acc ((h1, l1) :: hs.zip ls)
  | _, _ => List.replicate high.length none

/-- True range at bar `i ≥ 1` (range extended by the previous close). -/
def trAt (h l c : List ℚ) (i : ℕ) : ℚ :=
  max (h.getD i 0 - l.getD i 0)
    (max |h.getD i 0 - c.getD (i - 1) 0| |l.getD i 0 - c.getD (i - 1) 0|)

/-- Plus directional movement at bar `i ≥ 1`. -/
def plusDMAt (h l : List ℚ) (i : ℕ) : ℚ :=
  let up := h.getD i 0 - h.getD (i - 1) 0
  let dn := l.getD (i - 1) 0 - l.getD i 0
  if up > dn ∧ up > 0 then up else 0

/-- Minus directional movement at bar `i ≥ 1`. -/
def minusDMAt (h l : List ℚ) (i : ℕ) : ℚ :=
  let up := h.getD i 0 - h.getD (i - 1) 0
  let dn := l.getD (i - 1) 0 - l.getD i 0
  if dn > up ∧ dn > 0 then dn else 0

/-- Wilder smoothed running sum of `f` over period `w`, seeded at bar `w`
with the plain sum of `f 1 .. f w`. -/
def wSumAt (f : ℕ → ℚ) (w : ℕ) : ℕ → ℚ
  | 0 => ((List.range w).map (fun j => f (j + 1))).sum
  | i + 1 =>
    if i + 1 ≤ w then ((List.range w).map (fun j => f (j + 1))).sum
    else
      let p := wSumAt f w i
      p - p / w + f (i + 1)

/-- Directional index at bar `i ≥ w`, from the Wilder-smoothed DM/TR sums. -/
def dxAt (h l c : List ℚ) (w i : ℕ) : ℚ :=
  let st := wSumAt (trAt h l c) w i
  let dip := if st = 0 then 0 else 100 * wSumAt (plusDMAt h l) w i / st
  let dim := if st = 0 then 0 else 100 * wSumAt (minusDMAt h l) w i / st
  if dip + dim = 0 then 0 else 100 * |dip - dim| / (dip + dim)

/-- Average directional index at bar `i ≥ 2w - 1`: mean of the first `w`
DX values, then Wilder-smoothed. -/
def adxAt (h l c : List ℚ) (w : ℕ) : ℕ → ℚ
  | 0 => (((List.range w).map (fun j => dxAt h l c w (w + j))).sum) / w
  | i + 1 =>
    if i + 1 ≤ 2 * w - 1 then
      (((List.range w).map (fun j => dxAt h l c w (w + j))).sum) / w
    else (adxAt h l c w i * ((w : ℚ) - 1) + dxAt h l c w (i + 1)) / w

/-- `ta.ADX`: lookback `2w - 1`. -/
def ADX (w : ℕ) (high low close : Series) : Series :=
  (List.range close.length).map (fun i =>
    if i < 2 * w - 1 then none
    else some (adxAt (toRaw high) (toRaw low) (toRaw close) w i))

/-- Wilder average true range at bar `i ≥ w`. -/
def atrAt (h l c : List ℚ) (w : ℕ) : ℕ → ℚ
  | 0 => meanL ((List.range w).map (fun j => trAt h l c (j + 1)))
  | i + 1 =>
    if i + 1 ≤ w then meanL ((List.range w).map (fun j => trAt h l c (j + 1)))
    else (atrAt h l c w i * ((w : ℚ) - 1) + trAt h l c (i + 1)) / w

/-- `ta.ATR`: lookback `w`. -/
def ATR (w : ℕ) (high low close : Series) : Series :=
  (List.range close.length).map (fun i =>
    if i < w then none
    else some (atrAt (toRaw high) (toRaw low) (toRaw close) w i))

/-- `ta.NATR`: ATR normalised by the close. -/
def NATR (w : ℕ) (high low close : Series) : Series :=
  (List.range close.length).map (fun i =>
    if i < w then none
    else some
      (let c := (toRaw close).getD i 0
       if c = 0 then 0
       else 100 * atrAt (toRaw high) (toRaw low) (toRaw close) w i / c))

/-- `ta.TRANGE`: true range, NaN at bar 0. -/
def TRANGE (high low close : Series) : Series :=
  (List.range close.length).map (fun i =>
    if i = 0 then none
    else some (trAt (toRaw high) (toRaw low) (toRaw close) i))

/-- Kaufman adaptive moving average value at bar `i ≥ w`: efficiency
ratio scaled between the fast (2) and slow (30) smoothing constants,
seeded with the price at bar `w - 1`. -/
def kamaAt (w : ℕ) (xs : List ℚ) : ℕ → ℚ
  | 0 => xs.getD (w - 1) 0
  | i + 1 =>
    if i + 1 ≤ w - 1 then xs.getD (w - 1) 0
    else
      let vol := ((List.range w).map (fun j => |diffAt xs (i + 1 - j)|)).sum
      let er := if vol = 0 then 1 else |xs.getD (i + 1) 0 - xs.getD (i + 1 - w) 0| / vol
      let sc := (er * (2 / 3 - 2 / 31) + 2 / 31) ^ 2
      let p := kamaAt w xs i
      p + sc * (xs.getD (i + 1) 0 - p)

/-- `ta.KAMA`: lookback `w`. -/
def KAMA (w : ℕ) (s : Series) : Series :=
  (List.range s.length).map (fun i =>
    if i < w then none else some (kamaAt w (toRaw s) i))

/-- `ta.T3` with volume factor `b` (TA-Lib default 0.7): the Tillson
polynomial of six chained EMAs; lookback `6 (w - 1)` arises from the
EMA composition. -/
def T3 (w : ℕ) (b : ℚ) (s : Series) : Series :=
  let e3 := EMA w (EMA w (EMA w s))
  let e4 := EMA w e3
  let e5 := EMA w e4
  let e6 := EMA w e5
  zipS (fun x y => x + y)
    (zipS (fun x y => x + y)
      (mapS (fun v => (-(b ^ 3)) * v) e6)
      (mapS (fun v => (3 * b ^ 2 + 3 * b ^ 3) * v) e5))
    (zipS (fun x y => x + y)
      (mapS (fun v => (-6 * b ^ 2 - 3 * b - 3 * b ^ 3) * v) e4)
      (mapS (fun v => (1 + 3 * b + b ^ 3 + 3 * b ^ 2) * v) e3))

/-- `ta.DEMA`: `2·EMA − EMA(EMA)`; lookback `2 (w - 1)`. -/
def DEMA (w : ℕ) (s : Series) : Series :=
  let e1 := EMA w s
  zipS (fun a b => 2 * a - b) e1 (EMA w e1)

/-- `ta.TEMA`: `3·EMA − 3·EMA² + EMA³`; lookback `3 (w - 1)`. -/
def TEMA (w : ℕ) (s : Series) : Series :=
  let e1 := EMA w s
  let e2 := EMA w e1
  zipS (fun x y => x + y) (zipS (fun a b => 3 * a - 3 * b) e1 e2) (EMA w e2)

/-- `ta.TYPPRICE`: `(high + low + close) / 3`. -/
def TYPPRICE (high low close : Series) : Series :=
  zipS (fun s c => (s + c) / 3) (zipS (fun a b => a + b) high low) close

/-- `ta.WCLPRICE`: `(high + low + 2 close) / 4`. -/
def WCLPRICE (high low close : Series) : Series :=
  zipS (fun s c => (s + 2 * c) / 4) (zipS (fun a b => a + b) high low) close

/-- `ta.MEDPRICE`: `(high + low) / 2`. -/
def MEDPRICE (high low : Series) : Series :=
  zipS (fun a b => (a + b) / 2) high low

/-- Commodity-channel value of one window: deviation of the newest
typical price from the window mean, scaled by 0.015 of the mean
absolute deviation (zero-deviation guarded as in TA-Lib). -/
def cciW (l : List ℚ) : ℚ :=
  let m := meanL l
  let md := meanL (l.map (fun x => |x - m|))
  if md = 0 then 0 else (l.getLast?.getD 0 - m) / ((15 / 1000) * md)

/-- `ta.CCI`. -/
def CCI (w : ℕ) (high low close : Series) : Series :=
  rollingS cciW w (TYPPRICE high low close)

/-- `ta.WILLR`: `-100 (hh - close) / (hh - ll)` over the window. -/
def WILLR (w : ℕ) (high low close : Series) : Series :=
  (List.range close.length).map (fun i => do
    let hh ← (windowAt w high i).map maxL
    let ll ← (windowAt w low i).map minL
    let c ← oget close i
    pure (if hh - ll = 0 then 0 else -100 * (hh - c) / (hh - ll)))

/-- Buying pressure at bar `i ≥ 1`. -/
def bpAt (l c : List ℚ) (i : ℕ) : ℚ :=
  c.getD i 0 - min (l.getD i 0) (c.getD (i - 1) 0)

/-- Ultimate-oscillator true range at bar `i ≥ 1`. -/
def trUAt (h l c : List ℚ) (i : ℕ) : ℚ :=
  max (h.getD i 0) (c.getD (i - 1) 0) - min (l.getD i 0) (c.getD (i - 1) 0)

/-- Windowed buying-pressure / true-range quotient ending at bar `i`. -/
def uoAvg (h l c : List ℚ) (w i : ℕ) : ℚ :=
  let tb := ((List.range w).map (fun j => bpAt l c (i - j))).sum
  let tt := ((List.range w).map (fun j => trUAt h l c (i - j))).sum
  if tt = 0 then 0 else tb / tt

/-- `ta.ULTOSC`: weighted (4, 2, 1) blend of the three window quotients;
lookback is the longest period. -/
def ULTOSC (w1 w2 w3 : ℕ) (high low close : Series) : Series :=
  (List.range close.length).map (fun i =>
    if i < w3 then none
    else some
      (let h := toRaw high
       let l := toRaw low
       let c := toRaw close
       100 * (4 * uoAvg h l c w1 i + 2 * uoAvg h l c w2 i + uoAvg h l c w3 i) / 7))

/-- `ta.TRIX`: one-bar rate of change of a triple EMA. -/
def TRIX (w : ℕ) (s : Series) : Series :=
  let e3 := EMA w (EMA w (EMA w s))
  (List.range s.length).map (fun i =>
    if i = 0 then none
    else do
      let p ← oget e3 (i - 1)
      let c ← oget e3 i
      pure (if p = 0 then 0 else 100 * (c - p) / p))

/-- Raw stochastic %K of a single series against its own rolling range. -/
def fastKOf (w : ℕ) (s : Series) : Series :=
  (List.range s.length).map (fun i => do
    let hh ← (windowAt w s i).map maxL
    let ll ← (windowAt w s i).map minL
    let c ← oget s i
    pure (if hh - ll = 0 then 0 else 100 * (c - ll) / (hh - ll)))

/-- `ta.STOCHRSI` with `fastd_matype = 0`: the stochastic of the RSI;
returns `(fastk, fastd)`. -/
def STOCHRSI (w fk fd : ℕ) (s : Series) : Series × Series :=
  let k := fastKOf fk (RSI w s)
  (k, rollingS meanL fd k)

/-- Running on-balance volume after the seed bar. -/
def obvFold : ℚ → ℚ → List (ℚ × ℚ) → List (Option ℚ)
  | _, _, [] => []
  | pc, acc, (c, v) :: rest =>
    let acc2 := if pc < c then acc + v else if c < pc then acc - v else acc
    some acc2 :: obvFold c acc2 rest

/-- `ta.OBV`: seeded with the first bar's volume, defined everywhere. -/
def OBV (close vol : Series) : Series :=
  match toRaw close, toRaw vol with
  | c0 :: cs, v0 :: vs => some v0 :: obvFold c0 v0 (cs.zip vs)
  | _, _ => []

/-- Running Chaikin accumulation/distribution line. -/
def adFold : ℚ → List (ℚ × ℚ × ℚ × ℚ) → List (Option ℚ)
  | _, [] => []
  | acc, (h, l, c, v) :: rest =>
    let mfm := if h - l = 0 then 0 else ((c - l) - (h - c)) / (h - l)
    let acc2 := acc + mfm * v
    some acc2 :: adFold acc2 rest

/-- `ta.AD`: defined everywhere. -/
def AD (high low close vol : Series) : Series :=
  adFold 0 ((toRaw high).zip ((toRaw low).zip ((toRaw close).zip (toRaw vol))))

/-- `ta.ADOSC`: fast EMA minus slow EMA of the A/D line. -/
def ADOSC (fast slow : ℕ) (high low close vol : Series) : Series :=
  let ad := AD high low close vol
  zipS (fun a b => a - b) (EMA fast ad) (EMA slow ad)

/-! ### DataFrames -/

/-- A pandas DataFrame: a date index (the source stores dates as
`YYYY-MM-DD` strings via `strftime`) plus named, position-aligned
columns. -/
structure Frame where
  dates : List String
  cols : List (String × Series)
deriving DecidableEq

/-- Number of rows. -/
def Frame.len (f : Frame) : ℕ := f.dates.length

/-- Column names, in order. -/
def Frame.names (f : Frame) : List String := f.cols.map Prod.fst

/-- `df[c]`: column lookup; a missing column is a `KeyError`, embedded as
`Except.error` carrying the missing name. -/
def Frame.getCol (f : Frame) (c : String) : Except String Series :=
  match f.cols.find? (fun p => p.1 == c) with
  | some p => .ok p.2
  | none => .error c

/-- `df[c] = s`: replace the column if the name exists, else append it. -/
def setColList : List (String × Series) → String → Series → List (String × Series)
  | [], c, s => [(c, s)]
  | p :: rest, c, s => if p.1 == c then (c, s) :: rest else p :: setColList rest c s

/-- In-place column assignment on a frame. -/
def Frame.setCol (f : Frame) (c : String) (s : Series) : Frame :=
  ⟨f.dates, setColList f.cols c s⟩

/-- A raw Bar Series as supplied by the data collaborator: OHLCV columns
over a date index, NaN-free. -/
def mkBarFrame (dates : List String) (o h l c v : List ℚ) : Frame :=
  ⟨dates, [("Open", o.map some), ("High", h.map some), ("Low", l.map some),
           ("Close", c.map some), ("Volume", v.map some)]⟩

/-- Row `i` has a defined value in every column. -/
def allSomeAt (f : Frame) (i : ℕ) : Bool :=
  f.cols.all (fun p => (oget p.2 i).isSome)

/-- `df.dropna()`: keep exactly the rows in which no column is NaN. -/
def dropna (f : Frame) : Frame :=
  let kept := (List.range f.len).filter (fun i => allSomeAt f i)
  ⟨kept.map (fun i => f.dates.getD i ""),
   f.cols.map (fun p => (p.1, kept.map (fun i => oget p.2 i)))⟩

/-! ### `calculate_all_indicators` (src/indicators.py lines 6-71)

The Python function assigns each indicator column into the frame it was
given (mutating its argument) and returns `df.dropna()`.  `augmentAll`
is the state of the argument frame after all assignments;
`calculate_all_indicators` is the returned frame. -/

/-- Sequential in-place column assignments. -/
def setCols (f : Frame) : List (String × Series) → Frame
  | [] => f
  | p :: rest => setCols (f.setCol p.1 p.2) rest

/-- The 36 column assignments of `calculate_all_indicators`, in source
order, as (name, series) pairs computed from the raw columns. -/
def indicatorAssignments (high low close volume : Series) : List (String × Series) :=
  let st := STOCH 14 3 3 high low close
  let mac := MACD 12 26 9 close
  let bb := BBANDS 20 2 2 close
  let high9 := rollingS maxL 9 high
  let low9 := rollingS minL 9 low
  let tenkan := mapS (fun x => x / 2) (zipS (fun a b => a + b) high9 low9)
  let high26 := rollingS maxL 26 high
  let low26 := rollingS minL 26 low
  let kijun := mapS (fun x => x / 2) (zipS (fun a b => a + b) high26 low26)
  let spanA := shiftS 26 (mapS (fun x => x / 2) (zipS (fun a b => a + b) tenkan kijun))
  let high52 := rollingS maxL 52 high
  let low52 := rollingS minL 52 low
  let spanB := shiftS 26 (mapS (fun x => x / 2) (zipS (fun a b => a + b) high52 low52))
  let strsi := STOCHRSI 14 5 3 close
  [("RSI", RSI 14 close), ("STOCH_K", st.1), ("STOCH_D", st.2),
   ("EMA_50", EMA 50 close), ("EMA_200", EMA 200 close),
   ("MACD", mac.1), ("MACD_Signal", mac.2),
   ("BB_Upper", bb.1), ("BB_Lower", bb.2),
   ("SAR", SAR (2 / 100) (2 / 10) high low), ("ADX", ADX 14 high low close),
   ("Tenkan_Sen", tenkan), ("Kijun_Sen", kijun),
   ("Senkou_Span_A", spanA), ("Senkou_Span_B", spanB),
   ("SMA_20", SMA 20 close), ("WMA_20", WMA 20 close), ("KAMA_10", KAMA 10 close),
   ("T3_10", T3 10 (7 / 10) close), ("DEMA_20", DEMA 20 close),
   ("TEMA_20", TEMA 20 close),
   ("CCI_20", CCI 20 high low close), ("WILLR_14", WILLR 14 high low close),
   ("ULTOSC", ULTOSC 7 14 28 high low close), ("TRIX_14", TRIX 14 close),
   ("STOCHRSI_K", strsi.1), ("STOCHRSI_D", strsi.2),
   ("OBV", OBV close volume), ("AD", AD high low close volume),
   ("ADOSC_3_10", ADOSC 3 10 high low close volume),
   ("ATR_14", ATR 14 high low close), ("NATR_14", NATR 14 high low close),
   ("TRANGE", TRANGE high low close), ("TYPPRICE", TYPPRICE high low close),
   ("WCLPRICE", WCLPRICE high low close), ("MEDPRICE", MEDPRICE high low)]

/-- The argument frame after all column assignments of
`calculate_all_indicators` (the function mutates the frame it is given;
raw-column reads raise `KeyError` when absent). -/
def augmentAll (df : Frame) : Except String Frame := do
  let close ← df.getCol "Close"
  let high ← df.getCol "High"
  let low ← df.getCol "Low"
  let volume ← df.getCol "Volume"
  pure (setCols df (indicatorAssignments high low close volume))

/-- `calculate_all_indicators`: all assignments, then `return df.dropna()`. -/
def calculate_all_indicators (df : Frame) : Except String Frame :=
  (augmentAll df).map dropna

/-! ### Signal predicates (src/indicators.py lines 75-249)

The two reusable comparison shapes of the catalog, exactly as they
appear in each condition: a threshold "exit" pairs `shift(1)` against a
strict constant comparison and the current bar against the closed
opposite comparison; a series crossing pairs a non-strict `shift(1)`
comparison with a strict current-bar comparison. -/

/-- `(s.shift(1) < t) & (s >= t)` at index `i` — the oversold-exit shape. -/
def exitAbove (s : Series) (t : ℚ) (i : ℕ) : Bool :=
  oLT (oget (shiftS 1 s) i) (some t) && oGE (oget s i) (some t)

/-- `(s.shift(1) > t) & (s <= t)` at index `i` — the overbought-exit shape. -/
def exitBelow (s : Series) (t : ℚ) (i : ℕ) : Bool :=
  oGT (oget (shiftS 1 s) i) (some t) && oLE (oget s i) (some t)

/-- `(a.shift(1) <= b.shift(1)) & (a > b)` at index `i` — bullish crossing. -/
def crossUp (a b : Series) (i : ℕ) : Bool :=
  oLE (oget (shiftS 1 a) i) (oget (shiftS 1 b) i) && oGT (oget a i) (oget b i)

/-- `(a.shift(1) >= b.shift(1)) & (a < b)` at index `i` — bearish crossing. -/
def crossDown (a b : Series) (i : ℕ) : Bool :=
  oGE (oget (shiftS 1 a) i) (oget (shiftS 1 b) i) && oLT (oget a i) (oget b i)

/-- Row-wise minimum of two columns, pandas `min(axis=1)` with its
default `skipna=True`: a single NaN input is skipped, not propagated. -/
def skMin (x y : Option ℚ) : Option ℚ :=
  match x, y with
  | none, none => none
  | some a, none => some a
  | none, some b => some b
  | some a, some b => some (min a b)

/-- Row-wise maximum of two columns with `skipna=True`. -/
def skMax (x y : Option ℚ) : Option ℚ :=
  match x, y with
  | none, none => none
  | some a, none => some a
  | none, some b => some b
  | some a, some b => some (max a b)

/-- Condition 1a: RSI oversold exit and MACD bullish crossover. -/
def condition_1a (rsi macd macdSig : Series) (i : ℕ) : Bool :=
  exitAbove rsi 30 i && crossUp macd macdSig i

/-- Condition 1b: RSI overbought exit and MACD bearish crossover. -/
def condition_1b (rsi macd macdSig : Series) (i : ℕ) : Bool :=
  exitBelow rsi 70 i && crossDown macd macdSig i

/-- Condition 2a: golden cross with ADX gate. -/
def condition_2a (ema50 ema200 adx : Series) (i : ℕ) : Bool :=
  crossUp ema50 ema200 i && oGT (oget adx i) (some 25)

/-- Condition 2b: death cross with ADX gate. -/
def condition_2b (ema50 ema200 adx : Series) (i : ℕ) : Bool :=
  crossDown ema50 ema200 i && oGT (oget adx i) (some 25)

/-- Condition 3a: close under the lower band and a stochastic bullish cross. -/
def condition_3a (close bbLower stochK stochD : Series) (i : ℕ) : Bool :=
  oLT (oget close i) (oget bbLower i) && crossUp stochK stochD i

/-- Condition 3b: close over the upper band and a stochastic bearish cross. -/
def condition_3b (close bbUpper stochK stochD : Series) (i : ℕ) : Bool :=
  oGT (oget close i) (oget bbUpper i) && crossDown stochK stochD i

/-- Condition 4a: Tenkan/Kijun bullish cross with the close above the
cloud bottom (`min(axis=1)` of the two spans, skipna). -/
def condition_4a (tenkan kijun spanA spanB close : Series) (i : ℕ) : Bool :=
  crossUp tenkan kijun i && oGT (oget close i) (skMin (oget spanA i) (oget spanB i))

/-- Condition 4b: Tenkan/Kijun bearish cross with the close below the
cloud top (`max(axis=1)` of the two spans, skipna). -/
def condition_4b (tenkan kijun spanA spanB close : Series) (i : ℕ) : Bool :=
  crossDown tenkan kijun i && oLT (oget close i) (skMax (oget spanA i) (oget spanB i))

/-- Condition 5a: SAR bullish reversal with the close above EMA 50. -/
def condition_5a (close sar ema50 : Series) (i : ℕ) : Bool :=
  crossUp close sar i && oGT (oget close i) (oget ema50 i)

/-- First condition labelled 6a in the source (ATR block, lines 178-188):
close above EMA 50 and ATR above its own 100-bar rolling mean. -/
def condition_6a_atr (close ema50 atr : Series) (i : ℕ) : Bool :=
  oGT (oget close i) (oget ema50 i) &&
  oGT (oget atr i) (oget (rollingS meanL 100 atr) i)

/-- First condition labelled 7a in the source (lines 190-199): RSI and
MFI both oversold.  `MFI_14` is never produced by
`calculate_all_indicators`. -/
def condition_7a_mfi (rsi mfi : Series) (i : ℕ) : Bool :=
  oLT (oget rsi i) (some 30) && oLT (oget mfi i) (some 20)

/-- Second condition labelled 6a in the source: DEMA/TEMA golden cross
with the close above SMA 20. -/
def condition_6a_ma (dema tema close sma : Series) (i : ℕ) : Bool :=
  crossUp dema tema i && oGT (oget close i) (oget sma i)

/-- Second condition labelled 7a in the source: CCI oversold, WILLR exit
and ULTOSC gate. -/
def condition_7a_mom (cci willr ultosc : Series) (i : ℕ) : Bool :=
  oLT (oget cci i) (some (-100)) &&
  oLT (oget (shiftS 1 willr) i) (some (-80)) && oGT (oget willr i) (some (-80)) &&
  oGT (oget ultosc i) (some 30)

/-- Condition 8a: OBV at its 20-bar rolling high, ATR 1.5× its 10-bar
rolling mean, ADOSC positive. -/
def condition_8a (obv atr adosc : Series) (i : ℕ) : Bool :=
  oEQ (oget obv i) (oget (rollingS maxL 20 obv) i) &&
  oGT (oget atr i) ((oget (rollingS meanL 10 atr) i).map (fun x => 3 / 2 * x)) &&
  oGT (oget adosc i) (some 0)

/-- Condition 9a: STOCHRSI bullish cross, TRIX zero cross, RSI gate. -/
def condition_9a (stochrsiK stochrsiD trix rsi : Series) (i : ℕ) : Bool :=
  crossUp stochrsiK stochrsiD i &&
  oLE (oget (shiftS 1 trix) i) (some 0) && oGT (oget trix i) (some 0) &&
  oGT (oget rsi i) (some 40)

/-- Condition 10a: close above KAMA, NATR under its 20-bar rolling mean,
typical price above SMA 20. -/
def condition_10a (close kama natr typ sma : Series) (i : ℕ) : Bool :=
  oGT (oget close i) (oget kama i) &&
  oLT (oget natr i) (oget (rollingS meanL 20 natr) i) &&
  oGT (oget typ i) (oget sma i)

/-! ### `find_indicator_occurrences` (src/indicators.py lines 75-249) -/

/-- One occurrence row: the dict
`{"Ticker Name": …, "Indicator": …, "Occurence Date": …}`. -/
structure Event where
  tickerName : String
  indicator : String
  occurenceDate : String
deriving DecidableEq

/-- `for date_idx in df[condition].index: results.append(...)`: one event
per index at which the condition holds, carrying the row's date. -/
def eventsOf (df : Frame) (ticker name : String) (cond : ℕ → Bool) : List Event :=
  ((List.range df.len).filter (fun i => cond i)).map
    (fun i => ⟨ticker, name, df.dates.getD i ""⟩)

/-- The scanner: evaluates the condition blocks in source order and
collects their events.  Column accesses are the fallible `df[...]`;
the first missing column aborts the whole call (Python `KeyError`),
discarding all events accumulated so far. -/
def find_indicator_occurrences (df : Frame) (ticker : String) :
    Except String (List Event) := do
  let rsi ← df.getCol "RSI"
  let macd ← df.getCol "MACD"
  let macdSig ← df.getCol "MACD_Signal"
  let e1a := eventsOf df ticker "Complex: RSI Exit (>30) + MACD Bullish Crossover"
    (condition_1a rsi macd macdSig)
  let e1b := eventsOf df ticker "Complex: RSI Exit (<70) + MACD Bearish Crossover"
    (condition_1b rsi macd macdSig)
  let ema50 ← df.getCol "EMA_50"
  let ema200 ← df.getCol "EMA_200"
  let adx ← df.getCol "ADX"
  let e2a := eventsOf df ticker "Complex: Golden Cross (50/200) + ADX Trend Entry (> 25)"
    (condition_2a ema50 ema200 adx)
  let e2b := eventsOf df ticker "Complex: Death Cross (50/200) + ADX Trend Entry (> 25)"
    (condition_2b ema50 ema200 adx)
  let close ← df.getCol "Close"
  let bbLower ← df.getCol "BB_Lower"
  let stochK ← df.getCol "STOCH_K"
  let stochD ← df.getCol "STOCH_D"
  let e3a := eventsOf df ticker "Complex: BBands Lower Touch + STOCH Bullish Crossover"
    (condition_3a close bbLower stochK stochD)
  let bbUpper ← df.getCol "BB_Upper"
  let e3b := eventsOf df ticker "Complex: BBands Upper Touch + STOCH Bearish Crossover"
    (condition_3b close bbUpper stochK stochD)
  let spanA ← df.getCol "Senkou_Span_A"
  let spanB ← df.getCol "Senkou_Span_B"
  let tenkan ← df.getCol "Tenkan_Sen"
  let kijun ← df.getCol "Kijun_Sen"
  let e4a := eventsOf df ticker "Complex: Ichimoku Bullish Cross AND Price Above Cloud"
    (condition_4a tenkan kijun spanA spanB close)
  let e4b := eventsOf df ticker "Complex: Ichimoku Bearish Cross AND Price Below Cloud"
    (condition_4b tenkan kijun spanA spanB close)
  let sar ← df.getCol "SAR"
  let e5a := eventsOf df ticker "Complex: SAR Bullish Reversal + Price > EMA 50"
    (condition_5a close sar ema50)
  let atr ← df.getCol "ATR_14"
  let e6aAtr := eventsOf df ticker "Complex: Price > EMA50 + ATR High Volatility"
    (condition_6a_atr close ema50 atr)
  let mfi ← df.getCol "MFI_14"
  let e7aMfi := eventsOf df ticker "Complex: RSI < 30 + MFI < 20"
    (condition_7a_mfi rsi mfi)
  let dema ← df.getCol "DEMA_20"
  let tema ← df.getCol "TEMA_20"
  let sma ← df.getCol "SMA_20"
  let e6aMa := eventsOf df ticker "Complex: DEMA/TEMA Golden Cross + SMA20 Uptrend"
    (condition_6a_ma dema tema close sma)
  let cci ← df.getCol "CCI_20"
  let willr ← df.getCol "WILLR_14"
  let ultosc ← df.getCol "ULTOSC"
  let e7aMom := eventsOf df ticker "Complex: CCI Oversold + WILLR Exit + ULTOSC Bullish"
    (condition_7a_mom cci willr ultosc)
  let obv ← df.getCol "OBV"
  let adosc ← df.getCol "ADOSC_3_10"
  let e8a := eventsOf df ticker "Complex: OBV New High + ATR Expansion + ADOSC > 0"
    (condition_8a obv atr adosc)
  let stochrsiK ← df.getCol "STOCHRSI_K"
  let stochrsiD ← df.getCol "STOCHRSI_D"
  let trix ← df.getCol "TRIX_14"
  let e9a := eventsOf df ticker "Complex: STOCHRSI Bullish + TRIX Zero Cross + RSI Recovery"
    (condition_9a stochrsiK stochrsiD trix rsi)
  let kama ← df.getCol "KAMA_10"
  let natr ← df.getCol "NATR_14"
  let typ ← df.getCol "TYPPRICE"
  let e10a := eventsOf df ticker "Complex: KAMA Up + NATR Low Volatility + TYPPRICE > SMA"
    (condition_10a close kama natr typ sma)
  pure (e1a ++ e1b ++ e2a ++ e2b ++ e3a ++ e3b ++ e4a ++ e4b ++ e5a ++
        e6aAtr ++ e7aMfi ++ e6aMa ++ e7aMom ++ e8a ++ e9a ++ e10a)

/-! ### Result aggregation and the batch driver (src/app.py lines 81-114) -/

/-- Descending `(occurrence date, ticker)` comparison.  The source parses
the `YYYY-MM-DD` strings with `pd.to_datetime` and sorts descending;
for this zero-padded format datetime order is exactly lexicographic
string order. -/
def eventLe (a b : Event) : Bool :=
  decide (b.occurenceDate < a.occurenceDate) ||
  (decide (a.occurenceDate = b.occurenceDate) && decide (b.tickerName ≤ a.tickerName))

/-- `results_df.sort_values(by=['Occurence Date', 'Ticker Name'],
ascending=False)`. -/
def aggregateResults (evs : List Event) : List Event := evs.mergeSort eventLe

/-- `run_analysis_and_store`: per ticker, a missing or empty fetch is a
recorded warning and the batch continues; otherwise the frame is
augmented and scanned, with Python exceptions propagating out (an
uncaught exception aborts the whole batch).  The second component
collects the warned tickers. -/
def run_analysis_and_store (fetch : String → Option Frame) (tickers : List String) :
    Except String (List Event × List String) := do
  let r ← tickers.foldlM (fun (acc : List Event × List String) t =>
    match fetch t with
    | some d =>
      if d.len = 0 then pure (acc.1, acc.2 ++ [t])
      else do
        let aug ← calculate_all_indicators d
        let evs ← find_indicator_occurrences aug t
        pure (acc.1 ++ evs, acc.2)
    | none => pure (acc.1, acc.2 ++ [t])) (([], []) : List Event × List String)
  pure (aggregateResults r.1, r.2)

/-! ### Structural lemmas about the embedding -/

theorem except_bind_ok {α β : Type} (a : α) (f : α → Except String β) :
    (Except.ok a >>= f) = f a := rfl

theorem except_bind_ok2 {α β : Type} (a : α) (f : α → Except String β) :
    (Except.ok a : Except String α).bind f = f a := rfl

theorem except_map_ok {α β : Type} (a : α) (f : α → β) :
    (Except.ok a : Except String α).map f = Except.ok (f a) := rfl

theorem except_bind_error {α β : Type} (e : String) (f : α → Except String β) :
    ((Except.error e : Except String α) >>= f) = Except.error e := rfl

theorem oget_range_map (f : ℕ → Option ℚ) (n i : ℕ) :
    oget ((List.range n).map f) i = if i < n then f i else none := by
  by_cases h : i < n
  · simp [oget, List.getElem?_map, List.getElem?_range h, h]
  · have hlen : ((List.range n).map f).length ≤ i := by
      simpa using Nat.le_of_not_lt h
    simp [oget, List.getElem?_eq_none hlen, h]

theorem oget_map_some (l : List ℚ) (i : ℕ) :
    oget (l.map some) i = l[i]? := by
  unfold oget
  rw [List.getElem?_map]
  cases (l[i]?) <;> rfl

theorem oget_nil (i : ℕ) : oget [] i = none := rfl

theorem oget_shiftS (k : ℕ) (s : Series) (i : ℕ) :
    oget (shiftS k s) i =
      if i < k ∨ s.length ≤ i then none else oget s (i - k) := by
  unfold shiftS
  rw [oget_range_map]
  by_cases h1 : i < s.length
  · by_cases h2 : i < k <;>
      simp [h1, h2, Nat.not_le.mpr h1]
  · simp [h1, Nat.le_of_not_lt h1]

theorem oget_mapS (f : ℚ → ℚ) (s : Series) (i : ℕ) :
    oget (mapS f s) i = (oget s i).map f := by
  unfold mapS oget
  rw [List.getElem?_map]
  cases h : s[i]? with
  | none => rfl
  | some o => cases o <;> rfl

theorem oget_none_of_le {s : Series} {i : ℕ} (h : s.length ≤ i) :
    oget s i = none := by
  simp [oget, List.getElem?_eq_none h]

theorem oget_zipS (f : ℚ → ℚ → ℚ) (a b : Series) (i : ℕ) :
    oget (zipS f a b) i = (oget a i).bind (fun x => (oget b i).map (f x)) := by
  unfold zipS
  rw [oget_range_map]
  by_cases h : i < max a.length b.length
  · simp [h, Option.bind_eq_bind]
    cases oget a i <;> cases oget b i <;> rfl
  · have ha : oget a i = none :=
      oget_none_of_le (le_trans (le_max_left _ _) (Nat.le_of_not_lt h))
    simp [h, ha]

theorem oget_rollingS (f : List ℚ → ℚ) (w : ℕ) (s : Series) (i : ℕ) :
    oget (rollingS f w s) i =
      if i < s.length then (windowAt w s i).map f else none := by
  unfold rollingS
  rw [oget_range_map]

theorem reduceOption_map_some (l : List ℚ) : (l.map some).reduceOption = l := by
  induction l with
  | nil => rfl
  | cons a t ih => simp [List.reduceOption_cons_of_some, ih]

theorem takeWhile_isNone_map_some (c : List ℚ) :
    ((c.map some).takeWhile Option.isNone) = [] := by
  cases c <;> simp [List.takeWhile]

theorem toRaw_map_some (c : List ℚ) : toRaw (c.map some) = c := by
  induction c with
  | nil => rfl
  | cons a t ih =>
    simp only [toRaw, List.map_cons] at ih ⊢
    rw [ih]
    rfl

/-- On a NaN-free column, the rolling window at `i` is defined exactly
when the window fits: `w ≤ i + 1 ≤ length`. -/
theorem windowAt_map_some (w : ℕ) (c : List ℚ) (i : ℕ) (hw0 : 1 ≤ w) :
    windowAt w (c.map some) i =
      if w ≤ i + 1 ∧ i < c.length then some ((c.drop (i + 1 - w)).take w)
      else none := by
  unfold windowAt
  by_cases h1 : i + 1 < w
  · simp [h1, Nat.not_le.mpr h1]
  · have hw : w ≤ i + 1 := Nat.le_of_not_lt h1
    have heq : ((c.map some).drop (i + 1 - w)).take w =
        ((c.drop (i + 1 - w)).take w).map some := by
      rw [← List.map_drop, ← List.map_take]
    rw [if_neg h1, heq]
    by_cases h2 : i < c.length
    · have hlen : (((c.drop (i + 1 - w)).take w).map some).length = w := by
        simp only [List.length_map, List.length_take, List.length_drop]
        omega
      have hall : (((c.drop (i + 1 - w)).take w).map some).all Option.isSome = true := by
        rw [List.all_eq_true]
        intro x hx
        obtain ⟨y, _, rfl⟩ := List.mem_map.mp hx
        rfl
      rw [if_pos ⟨hlen, hall⟩, reduceOption_map_some, if_pos ⟨hw, h2⟩]
    · have hlen : (((c.drop (i + 1 - w)).take w).map some).length ≠ w := by
        simp only [List.length_map, List.length_take, List.length_drop]
        omega
      rw [if_neg (fun hc => hlen hc.1), if_neg (fun hc => absurd hc.2 h2)]

/-! Frame-level lemmas. -/

theorem getCol_ok_of_mem {f : Frame} {c : String} (h : c ∈ f.names) :
    ∃ s, f.getCol c = Except.ok s := by
  unfold Frame.getCol
  cases hf : f.cols.find? (fun p => p.1 == c) with
  | some p => exact ⟨p.2, rfl⟩
  | none =>
    exfalso
    rw [List.find?_eq_none] at hf
    obtain ⟨p, hp, hpc⟩ := List.mem_map.mp h
    exact absurd (by simpa using hpc) (by simpa using hf p hp)

theorem getCol_error_of_not_mem {f : Frame} {c : String} (h : c ∉ f.names) :
    f.getCol c = Except.error c := by
  unfold Frame.getCol
  have : f.cols.find? (fun p => p.1 == c) = none := by
    rw [List.find?_eq_none]
    intro p hp
    simp only [beq_iff_eq]
    intro he
    exact h (List.mem_map.mpr ⟨p, hp, he⟩)
  rw [this]

theorem dropna_names (f : Frame) : (dropna f).names = f.names := by
  simp [dropna, Frame.names, List.map_map, Function.comp]

theorem dropna_of_all_none (f : Frame) (q : String × Series)
    (hmem : q ∈ f.cols) (hnone : ∀ i, oget q.2 i = none) :
    dropna f = ⟨[], f.cols.map (fun p => (p.1, []))⟩ := by
  have hkept : ((List.range f.len).filter (fun i => allSomeAt f i)) = [] := by
    rw [List.filter_eq_nil_iff]
    intro i _
    simp only [allSomeAt, Bool.not_eq_true]
    rw [List.all_eq_false]
    exact ⟨q, hmem, by simp [hnone i]⟩
  simp [dropna, hkept]

/-- Every entry of every column of a `dropna` result is defined: the
combined drop removes a row as soon as any column is NaN there. -/
theorem dropna_defined (f : Frame) :
    ∀ p ∈ (dropna f).cols, ∀ x ∈ p.2, x.isSome = true := by
  intro p hp x hx
  simp only [dropna, List.mem_map] at hp
  obtain ⟨q, hq, rfl⟩ := hp
  simp only [List.mem_map] at hx
  obtain ⟨i, hi, rfl⟩ := hx
  have hall := (List.mem_filter.mp hi).2
  simp only [allSomeAt, List.all_eq_true] at hall
  exact hall q hq

theorem setColList_append (l : List (String × Series)) (c : String) (s : Series)
    (h : ∀ p ∈ l, p.1 ≠ c) : setColList l c s = l ++ [(c, s)] := by
  induction l with
  | nil => rfl
  | cons p rest ih =>
    have hp : ¬((p.1 == c) = true) := by
      simpa using h p (by simp)
    simp only [setColList]
    rw [if_neg hp, ih (fun q hq => h q (by simp [hq])), List.cons_append]

theorem setCols_spec (l : List (String × Series)) (f : Frame)
    (h : ∀ n ∈ l.map Prod.fst, n ∉ f.names) (hnd : (l.map Prod.fst).Nodup) :
    setCols f l = ⟨f.dates, f.cols ++ l⟩ := by
  induction l generalizing f with
  | nil => simp [setCols]
  | cons p rest ih =>
    have h1 : ∀ q ∈ f.cols, q.1 ≠ p.1 := by
      intro q hq he
      exact h p.1 (by simp) (List.mem_map.mpr ⟨q, hq, he⟩)
    have hset : f.setCol p.1 p.2 = ⟨f.dates, f.cols ++ [p]⟩ := by
      simp [Frame.setCol, setColList_append f.cols p.1 p.2 h1]
    have hmem2 : ∀ n ∈ rest.map Prod.fst,
        n ∉ (Frame.mk f.dates (f.cols ++ [p])).names := by
      intro n hn hin
      simp only [Frame.names, List.map_append, List.mem_append] at hin
      rcases hin with hnf | hnp
      · exact h n (by simp [hn]) hnf
      · simp only [List.map_cons, List.map_nil, List.mem_singleton] at hnp
        rw [List.map_cons, List.nodup_cons] at hnd
        exact hnd.1 (hnp ▸ hn)
    have hnd2 : (rest.map Prod.fst).Nodup := by
      rw [List.map_cons, List.nodup_cons] at hnd
      exact hnd.2
    simp only [setCols]
    rw [hset, ih _ hmem2 hnd2]
    simp

/-! Reduction of the augmentation pipeline on a Bar Series. -/

/-- The value of the argument frame after `calculate_all_indicators` has
run on a Bar Series: the five raw columns followed by the 36 indicator
columns in assignment order. -/
def augFrame (d : List String) (o h l c v : List ℚ) : Frame :=
  ⟨d, (mkBarFrame d o h l c v).cols ++
      indicatorAssignments (h.map some) (l.map some) (c.map some) (v.map some)⟩

/-- The raw Bar Series column names. -/
def barColNames : List String := ["Open", "High", "Low", "Close", "Volume"]

/-- The 36 indicator column names, in assignment order.  `MFI_14` is not
among them. -/
def indicatorColNames : List String :=
  ["RSI", "STOCH_K", "STOCH_D", "EMA_50", "EMA_200", "MACD", "MACD_Signal",
   "BB_Upper", "BB_Lower", "SAR", "ADX", "Tenkan_Sen", "Kijun_Sen",
   "Senkou_Span_A", "Senkou_Span_B", "SMA_20", "WMA_20", "KAMA_10", "T3_10",
   "DEMA_20", "TEMA_20", "CCI_20", "WILLR_14", "ULTOSC", "TRIX_14",
   "STOCHRSI_K", "STOCHRSI_D", "OBV", "AD", "ADOSC_3_10", "ATR_14", "NATR_14",
   "TRANGE", "TYPPRICE", "WCLPRICE", "MEDPRICE"]

/-- All column names of the augmented frame. -/
def fullColNames : List String := barColNames ++ indicatorColNames

theorem indicatorAssignments_names (hi lo cl vo : Series) :
    (indicatorAssignments hi lo cl vo).map Prod.fst = indicatorColNames := rfl

theorem mkBarFrame_names (d : List String) (o h l c v : List ℚ) :
    (mkBarFrame d o h l c v).names = barColNames := rfl

/-- Running the assignment block of `calculate_all_indicators` on a Bar
Series succeeds and produces exactly the appended indicator columns. -/
theorem augment_mkBar (d : List String) (o h l c v : List ℚ) :
    augmentAll (mkBarFrame d o h l c v) = Except.ok (augFrame d o h l c v) := by
  have e1 : (mkBarFrame d o h l c v).getCol "Close" = Except.ok (c.map some) := rfl
  have e2 : (mkBarFrame d o h l c v).getCol "High" = Except.ok (h.map some) := rfl
  have e3 : (mkBarFrame d o h l c v).getCol "Low" = Except.ok (l.map some) := rfl
  have e4 : (mkBarFrame d o h l c v).getCol "Volume" = Except.ok (v.map some) := rfl
  have hnames : ∀ n ∈ (indicatorAssignments (h.map some) (l.map some)
      (c.map some) (v.map some)).map Prod.fst, n ∉ (mkBarFrame d o h l c v).names := by
    rw [indicatorAssignments_names, mkBarFrame_names]
    decide
  have hnd : ((indicatorAssignments (h.map some) (l.map some)
      (c.map some) (v.map some)).map Prod.fst).Nodup := by
    rw [indicatorAssignments_names]
    decide
  simp only [augmentAll, e1, e2, e3, e4, except_bind_ok]
  rw [setCols_spec _ _ hnames hnd]
  rfl

theorem augFrame_names (d : List String) (o h l c v : List ℚ) :
    (augFrame d o h l c v).names = fullColNames := by
  show ((mkBarFrame d o h l c v).cols ++
      indicatorAssignments (h.map some) (l.map some) (c.map some) (v.map some)).map
        Prod.fst = fullColNames
  rw [List.map_append, indicatorAssignments_names]
  rfl

/-- The scanner aborts with the missing-column error `MFI_14` on every
frame that has exactly the columns `calculate_all_indicators` produces:
all lookups before the MFI block succeed, and `df['MFI_14']` raises. -/
theorem scanner_missing_mfi (df : Frame) (t : String) (hn : df.names = fullColNames) :
    find_indicator_occurrences df t = Except.error "MFI_14" := by
  obtain ⟨s1, e1⟩ := getCol_ok_of_mem (f := df) (c := "RSI") (by rw [hn]; decide)
  obtain ⟨s2, e2⟩ := getCol_ok_of_mem (f := df) (c := "MACD") (by rw [hn]; decide)
  obtain ⟨s3, e3⟩ := getCol_ok_of_mem (f := df) (c := "MACD_Signal") (by rw [hn]; decide)
  obtain ⟨s4, e4⟩ := getCol_ok_of_mem (f := df) (c := "EMA_50") (by rw [hn]; decide)
  obtain ⟨s5, e5⟩ := getCol_ok_of_mem (f := df) (c := "EMA_200") (by rw [hn]; decide)
  obtain ⟨s6, e6⟩ := getCol_ok_of_mem (f := df) (c := "ADX") (by rw [hn]; decide)
  obtain ⟨s7, e7⟩ := getCol_ok_of_mem (f := df) (c := "Close") (by rw [hn]; decide)
  obtain ⟨s8, e8⟩ := getCol_ok_of_mem (f := df) (c := "BB_Lower") (by rw [hn]; decide)
  obtain ⟨s9, e9⟩ := getCol_ok_of_mem (f := df) (c := "STOCH_K") (by rw [hn]; decide)
  obtain ⟨s10, e10⟩ := getCol_ok_of_mem (f := df) (c := "STOCH_D") (by rw [hn]; decide)
  obtain ⟨s11, e11⟩ := getCol_ok_of_mem (f := df) (c := "BB_Upper") (by rw [hn]; decide)
  obtain ⟨s12, e12⟩ := getCol_ok_of_mem (f := df) (c := "Senkou_Span_A") (by rw [hn]; decide)
  obtain ⟨s13, e13⟩ := getCol_ok_of_mem (f := df) (c := "Senkou_Span_B") (by rw [hn]; decide)
  obtain ⟨s14, e14⟩ := getCol_ok_of_mem (f := df) (c := "Tenkan_Sen") (by rw [hn]; decide)
  obtain ⟨s15, e15⟩ := getCol_ok_of_mem (f := df) (c := "Kijun_Sen") (by rw [hn]; decide)
  obtain ⟨s16, e16⟩ := getCol_ok_of_mem (f := df) (c := "SAR") (by rw [hn]; decide)
  obtain ⟨s17, e17⟩ := getCol_ok_of_mem (f := df) (c := "ATR_14") (by rw [hn]; decide)
  have emfi : df.getCol "MFI_14" = Except.error "MFI_14" :=
    getCol_error_of_not_mem (by rw [hn]; decide)
  simp only [find_indicator_occurrences, e1, e2, e3, e4, e5, e6, e7, e8, e9, e10,
    e11, e12, e13, e14, e15, e16, e17, emfi, except_bind_ok, except_bind_error]

/-- An EMA with period 200 over a NaN-free column shorter than 200 bars
is undefined at every position. -/
theorem ema200_none (cl : List ℚ) (hlen : cl.length ≤ 199) (i : ℕ) :
    oget (EMA 200 (cl.map some)) i = none := by
  simp only [EMA, takeWhile_isNone_map_some, List.length_nil, List.replicate,
    List.nil_append, List.drop_zero, toRaw_map_some, emaList]
  rw [oget_range_map]
  by_cases h : i < cl.length
  · have h2 : i + 1 < 200 := by omega
    simp [h, h2]
  · simp [h]

/-- `calculate_all_indicators` on a Bar Series: the augmented columns,
then the combined `dropna`. -/
theorem calc_mkBar (d : List String) (o h l c v : List ℚ) :
    calculate_all_indicators (mkBarFrame d o h l c v) =
      Except.ok (dropna (augFrame d o h l c v)) := by
  rw [calculate_all_indicators, augment_mkBar]
  rfl

theorem ema200_mem_augFrame (d : List String) (o h l c v : List ℚ) :
    ("EMA_200", EMA 200 (c.map some)) ∈ (augFrame d o h l c v).cols := by
  show _ ∈ (mkBarFrame d o h l c v).cols ++
      indicatorAssignments (h.map some) (l.map some) (c.map some) (v.map some)
  refine List.mem_append.mpr (Or.inr ?hm)
  simp [indicatorAssignments]

/-- On fewer than 200 bars the returned frame is empty: `EMA_200` is
NaN everywhere, and the combined `dropna` therefore drops every row. -/
theorem calc_mkBar_short (d : List String) (o h l c v : List ℚ)
    (hlen : c.length ≤ 199) :
    calculate_all_indicators (mkBarFrame d o h l c v) =
      Except.ok ⟨[], (augFrame d o h l c v).cols.map (fun p => (p.1, []))⟩ := by
  rw [calc_mkBar]
  congr 1
  exact dropna_of_all_none _ ("EMA_200", EMA 200 (c.map some))
    (ema200_mem_augFrame d o h l c v) (fun i => ema200_none c hlen i)

/-- For every Bar Series input, running the scan pipeline
(`calculate_all_indicators` then `find_indicator_occurrences`) aborts
with the missing-column error for `MFI_14`. -/
theorem pipeline_error (d : List String) (o h l c v : List ℚ) (t : String) :
    ((calculate_all_indicators (mkBarFrame d o h l c v)).bind
      (fun g => find_indicator_occurrences g t)) = Except.error "MFI_14" := by
  have h1 : ((calculate_all_indicators (mkBarFrame d o h l c v)).bind
      (fun g => find_indicator_occurrences g t)) =
      find_indicator_occurrences (dropna (augFrame d o h l c v)) t := by
    rw [calc_mkBar, except_bind_ok2]
  exact h1.trans (scanner_missing_mfi _ t (by rw [dropna_names, augFrame_names]))

/-- A concrete 5-bar Bar Series (the spec's insufficient-history scenario). -/
def exDates5 : List String :=
  ["2024-01-01", "2024-01-02", "2024-01-03", "2024-01-04", "2024-01-05"]

/-- The 5-bar example frame. -/
def exBars5 : Frame :=
  mkBarFrame exDates5 [10, 11, 12, 11, 10] [11, 12, 13, 12, 11]
    [9, 10, 11, 10, 9] [10, 11, 12, 11, 10] [100, 110, 120, 110, 100]

/-- C1: the Signal Catalog's reference to `MFI_14` — a series
`calculate_all_indicators` never produces — is not detected as a
configuration error before scanning; instead, for every instrument whose
Bar Series is fetched and analyzed, `find_indicator_occurrences` aborts
at runtime with the `MFI_14` key error, mid-scan, after the earlier
condition blocks have already run.  The first conjunct shows the
Indicator Library indeed never produces `MFI_14`; the second shows the
failure surfaces as a runtime error of the scanner, contradicting the
claimed catalog-load-time detection. -/
theorem c1_mfi_structural_failure_raises_at_runtime
    (d : List String) (o h l c v : List ℚ) (t : String) :
    "MFI_14" ∉ (augFrame d o h l c v).names ∧
    ((calculate_all_indicators (mkBarFrame d o h l c v)).bind
      (fun g => find_indicator_occurrences g t)) = Except.error "MFI_14" := by
  constructor
  · rw [augFrame_names]
    decide
  · exact pipeline_error d o h l c v t

/-- C2: on the spec's 5-bar series, insufficient history does make every
indicator column all-NaN and the returned frame empty (first conjunct),
but the subsequent scan does not yield zero events without error — it
raises the `MFI_14` key error (second conjunct), contradicting the
claim's "does not raise an error". -/
theorem c2_five_bar_series_raises_instead_of_zero_events :
    (calculate_all_indicators exBars5).map Frame.len = Except.ok 0 ∧
    ((calculate_all_indicators exBars5).bind
      (fun g => find_indicator_occurrences g "TCS")) = Except.error "MFI_14" := by
  constructor
  · rw [show exBars5 = mkBarFrame exDates5 [10, 11, 12, 11, 10] [11, 12, 13, 12, 11]
        [9, 10, 11, 10, 9] [10, 11, 12, 11, 10] [100, 110, 120, 110, 100] from rfl,
      calc_mkBar_short _ _ _ _ _ _ (by decide)]
    rfl
  · exact pipeline_error exDates5 _ _ _ _ _ "TCS"

/-- A two-instrument batch: `GOOD` has a Bar Series, `MISSING` has none. -/
def exFetch : String → Option Frame
  | "GOOD" => some exBars5
  | _ => none

/-- C9 counterexample: after the call, the argument frame no longer
holds exactly its original columns — the 36 indicator columns have been
assigned into it in place (the caller in `app.py` defends against
exactly this by passing `data.copy()`). -/
theorem c9_counterexample_argument_frame_mutated :
    (augmentAll exBars5).map Frame.names ≠ Except.ok exBars5.names := by
  have h : (augmentAll exBars5).map Frame.names = Except.ok fullColNames := by
    rw [show exBars5 = mkBarFrame exDates5 [10, 11, 12, 11, 10] [11, 12, 13, 12, 11]
        [9, 10, 11, 10, 9] [10, 11, 12, 11, 10] [100, 110, 120, 110, 100] from rfl,
      augment_mkBar, except_map_ok, augFrame_names]
  rw [h, show exBars5.names = barColNames from rfl]
  intro hcon
  exact absurd (Except.ok.inj hcon) (by decide)

/-- C9 amended: `calculate_all_indicators` mutates the frame it is given
by assigning the 36 indicator columns into it; the original OHLCV
columns, their contents, the row dates and the row count are untouched,
and the only change is the appended indicator columns (the returned
frame is a separate `dropna` copy). -/
theorem c9_amended_mutation_only_appends_indicator_columns
    (d : List String) (o h l c v : List ℚ) :
    augmentAll (mkBarFrame d o h l c v) = Except.ok (augFrame d o h l c v) ∧
    (augFrame d o h l c v).dates = d ∧
    (augFrame d o h l c v).names = barColNames ++ indicatorColNames ∧
    (augFrame d o h l c v).getCol "Open" = Except.ok (o.map some) ∧
    (augFrame d o h l c v).getCol "High" = Except.ok (h.map some) ∧
    (augFrame d o h l c v).getCol "Low" = Except.ok (l.map some) ∧
    (augFrame d o h l c v).getCol "Close" = Except.ok (c.map some) ∧
    (augFrame d o h l c v).getCol "Volume" = Except.ok (v.map some) :=
  ⟨augment_mkBar d o h l c v, rfl, augFrame_names d o h l c v, rfl, rfl, rfl, rfl, rfl⟩

/-- Dates `0 ... n-1` as strings. -/
def exDatesN (n : ℕ) : List String := (List.range n).map (fun i => toString i)

/-- A constant-valued Bar Series of `n` bars. -/
def exBarsN (n : ℕ) : Frame :=
  mkBarFrame (exDatesN n) (List.replicate n 10) (List.replicate n 11)
    (List.replicate n 9) (List.replicate n 10) (List.replicate n 100)

/-- C10 counterexample: if the combined drop were dominated by
Senkou_Span_B's 52-bar window shifted by 26 (warm-up boundary 77), a
78-bar series would return a nonempty frame (its last row).  It returns
an empty frame: `EMA_200`, undefined before position 199, dominates the
combined drop. -/
theorem c10_counterexample_spanb_does_not_dominate :
    (calculate_all_indicators (exBarsN 78)).map Frame.len = Except.ok 0 ∧
    77 < (exBarsN 78).len := by
  constructor
  · rw [show exBarsN 78 = mkBarFrame (exDatesN 78) (List.replicate 78 10)
        (List.replicate 78 11) (List.replicate 78 9) (List.replicate 78 10)
        (List.replicate 78 100) from rfl,
      calc_mkBar_short _ _ _ _ _ _ (by simp)]
    rfl
  · simp [exBarsN, mkBarFrame, exDatesN, Frame.len]

/-- C10 amended: every row of the frame returned by
`calculate_all_indicators` has a defined value in every column (the
`dropna` is one combined drop over all 41 columns), and the latest
warm-up boundary is dominated by `EMA_200`'s 200-bar warm-up, not
Senkou_Span_B's 77: any Bar Series of fewer than 200 bars returns an
empty frame, discarding the defined early values of the shorter-window
indicators. -/
theorem c10_amended_combined_drop (d : List String) (o h l c v : List ℚ) :
    (∀ g, calculate_all_indicators (mkBarFrame d o h l c v) = Except.ok g →
      ∀ p ∈ g.cols, ∀ x ∈ p.2, x.isSome = true) ∧
    (c.length ≤ 199 →
      (calculate_all_indicators (mkBarFrame d o h l c v)).map Frame.len =
        Except.ok 0) := by
  constructor
  · intro g hg p hp x hx
    rw [calc_mkBar] at hg
    simp only [Except.ok.injEq] at hg
    subst hg
    exact dropna_defined _ p hp x hx
  · intro hlen
    rw [calc_mkBar_short d o h l c v hlen]
    rfl

/-- C10 amended, witness: the 5-bar example series is shorter than 200
bars, so the returned frame is empty. -/
theorem c10_amended_combined_drop_witness :
    (calculate_all_indicators exBars5).map Frame.len = Except.ok 0 :=
  (c10_amended_combined_drop exDates5 [10, 11, 12, 11, 10] [11, 12, 13, 12, 11]
    [9, 10, 11, 10, 9] [10, 11, 12, 11, 10] [100, 110, 120, 110, 100]).2 (by decide)

theorem optIsSome_map (f : ℚ → ℚ) (x : Option ℚ) : (x.map f).isSome = x.isSome := by
  cases x <;> rfl

theorem isSome_opt_comb (f : ℚ → ℚ → ℚ) (a b : Option ℚ) :
    ((a.bind fun x => b.map (f x)).isSome) = (a.isSome && b.isSome) := by
  cases a <;> cases b <;> rfl

/-- A rolling aggregate over a NaN-free column is defined exactly on the
positions where the window fits. -/
theorem isSome_rollingS_map_some (f : List ℚ → ℚ) (w : ℕ) (hw : 1 ≤ w)
    (l : List ℚ) (i : ℕ) :
    (oget (rollingS f w (l.map some)) i).isSome =
      (decide (w ≤ i + 1) && decide (i < l.length)) := by
  rw [oget_rollingS, List.length_map]
  by_cases hi : i < l.length
  · rw [if_pos hi, windowAt_map_some w l i hw]
    by_cases hw2 : w ≤ i + 1
    · rw [if_pos ⟨hw2, hi⟩]
      simp [hw2, hi]
    · rw [if_neg (fun hc => hw2 hc.1)]
      simp [hw2, hi]
  · rw [if_neg hi]
    simp [hi]

theorem optIsSome_map_any {α β : Type} (f : α → β) (x : Option α) :
    (x.map f).isSome = x.isSome := by
  cases x <;> rfl

theorem oget_isSome_of_all {s : Series} (hs : ∀ x ∈ s, x.isSome = true) {i : ℕ}
    (hi : i < s.length) : (oget s i).isSome = true := by
  unfold oget
  rw [List.getElem?_eq_getElem hi]
  exact hs _ (List.getElem_mem hi)

/-- A rolling window over a NaN-free column (not necessarily of
`map some` shape) is available exactly where it fits. -/
theorem windowAt_isSome_all (w : ℕ) (hw : 1 ≤ w) (s : Series)
    (hs : ∀ x ∈ s, x.isSome = true) (i : ℕ) :
    (windowAt w s i).isSome = (decide (w ≤ i + 1) && decide (i < s.length)) := by
  unfold windowAt
  by_cases h1 : i + 1 < w
  · simp [h1, Nat.not_le.mpr h1]
  · have hw2 : w ≤ i + 1 := Nat.le_of_not_lt h1
    by_cases h2 : i < s.length
    · have hlen : ((s.drop (i + 1 - w)).take w).length = w := by
        simp only [List.length_take, List.length_drop]
        omega
      have hall : ((s.drop (i + 1 - w)).take w).all Option.isSome = true := by
        rw [List.all_eq_true]
        intro x hx
        exact hs x (List.mem_of_mem_drop (List.mem_of_mem_take hx))
      rw [if_neg h1, if_pos ⟨hlen, hall⟩]
      simp [hw2, h2]
    · have hlen : ((s.drop (i + 1 - w)).take w).length ≠ w := by
        simp only [List.length_take, List.length_drop]
        omega
      rw [if_neg h1, if_neg (fun hc => hlen hc.1)]
      simp [h2]

/-- A rolling aggregate over any NaN-free column is defined exactly on
the positions where the window fits. -/
theorem isSome_rollingS_all (f : List ℚ → ℚ) (w : ℕ) (hw : 1 ≤ w) (s : Series)
    (hs : ∀ x ∈ s, x.isSome = true) (i : ℕ) :
    (oget (rollingS f w s) i).isSome =
      (decide (w ≤ i + 1) && decide (i < s.length)) := by
  rw [oget_rollingS]
  by_cases hi : i < s.length
  · rw [if_pos hi, optIsSome_map_any, windowAt_isSome_all w hw s hs i]
  · rw [if_neg hi]
    simp [hi]

theorem allSome_map_some (l : List ℚ) : ∀ x ∈ l.map some, x.isSome = true := by
  intro x hx
  obtain ⟨y, _, rfl⟩ := List.mem_map.mp hx
  rfl

theorem zipS_length (f : ℚ → ℚ → ℚ) (a b : Series) :
    (zipS f a b).length = max a.length b.length := by
  simp [zipS]

theorem allSome_zipS (f : ℚ → ℚ → ℚ) (a b : Series) (hlen : a.length = b.length)
    (ha : ∀ x ∈ a, x.isSome = true) (hb : ∀ x ∈ b, x.isSome = true) :
    ∀ x ∈ zipS f a b, x.isSome = true := by
  intro x hx
  unfold zipS at hx
  obtain ⟨i, hi, rfl⟩ := List.mem_map.mp hx
  rw [List.mem_range] at hi
  have hia : i < a.length := by omega
  have hib : i < b.length := by omega
  have h1 := oget_isSome_of_all ha hia
  have h2 := oget_isSome_of_all hb hib
  cases hoa : oget a i with
  | none =>
    rw [hoa] at h1
    simp at h1
  | some xa =>
    cases hob : oget b i with
    | none =>
      rw [hob] at h2
      simp at h2
    | some yb => simp [hoa, hob]

/-- The typical-price column over equal-length NaN-free OHLC columns is
NaN-free. -/
theorem typ_all_some (h l c : List ℚ) (hhl : h.length = l.length)
    (hhc : h.length = c.length) :
    ∀ x ∈ TYPPRICE (h.map some) (l.map some) (c.map some), x.isSome = true := by
  unfold TYPPRICE
  apply allSome_zipS
  · rw [zipS_length]
    simp only [List.length_map]
    omega
  · exact allSome_zipS _ _ _ (by simp [hhl]) (allSome_map_some h) (allSome_map_some l)
  · exact allSome_map_some c

theorem typ_length (h l c : List ℚ) :
    (TYPPRICE (h.map some) (l.map some) (c.map some)).length =
      max (max h.length l.length) c.length := by
  unfold TYPPRICE
  rw [zipS_length, zipS_length]
  simp [List.length_map]

/-- `CCI_20` (a 20-bar rolling aggregate of the typical price) is
defined exactly from position 19 on. -/
theorem isSome_cci (h l c : List ℚ) (hhl : h.length = l.length)
    (hhc : h.length = c.length) (i : ℕ) :
    (oget (CCI 20 (h.map some) (l.map some) (c.map some)) i).isSome =
      (decide (20 ≤ i + 1) && decide (i < c.length)) := by
  unfold CCI
  rw [isSome_rollingS_all cciW 20 (by decide) _ (typ_all_some h l c hhl hhc) i]
  rw [typ_length]
  have hm : max (max h.length l.length) c.length = c.length := by omega
  rw [hm]

/-- `WILLR` is defined exactly where its high/low windows fit and the
close is defined. -/
theorem isSome_willr (w : ℕ) (hw : 1 ≤ w) (h l c : List ℚ)
    (hhl : h.length = l.length) (hhc : h.length = c.length) (i : ℕ) :
    (oget (WILLR w (h.map some) (l.map some) (c.map some)) i).isSome =
      (decide (w ≤ i + 1) && decide (i < c.length)) := by
  unfold WILLR
  rw [oget_range_map, List.length_map]
  by_cases hi : i < c.length
  · rw [if_pos hi]
    by_cases hw2 : w ≤ i + 1
    · rw [windowAt_map_some w h i hw, windowAt_map_some w l i hw,
        if_pos ⟨hw2, by omega⟩, if_pos ⟨hw2, by omega⟩,
        oget_map_some, List.getElem?_eq_getElem hi]
      simp [hw2, hi]
    · rw [windowAt_map_some w h i hw, if_neg (fun hc => hw2 hc.1)]
      simp [hw2]
  · rw [if_neg hi]
    simp [hi]

/-- Both Bollinger bands (SMA ± deviation, each a 20-bar rolling
aggregate of the close) are defined exactly from position 19 on. -/
theorem isSome_bbands (c : List ℚ) (i : ℕ) :
    ((oget (BBANDS 20 2 2 (c.map some)).1 i).isSome =
      (decide (20 ≤ i + 1) && decide (i < c.length))) ∧
    ((oget (BBANDS 20 2 2 (c.map some)).2 i).isSome =
      (decide (20 ≤ i + 1) && decide (i < c.length))) := by
  constructor <;>
  · simp only [BBANDS]
    rw [oget_zipS, isSome_opt_comb,
      isSome_rollingS_map_some meanL 20 (by decide) c i,
      isSome_rollingS_map_some (fun l => Rat.sqrt (varL l)) 20 (by decide) c i]
    cases hd : decide (20 ≤ i + 1) <;> cases hd2 : decide (i < c.length) <;> rfl

/-- C3 counterexample: a 20-bar series satisfies "length ≥ w" for
SMA_20 (w = 20), yet in the frame `calculate_all_indicators` produces,
SMA_20 has no defined value at position w - 1 = 19 — the combined
`dropna` has removed every row, because other indicators alongside it
(EMA_200 in particular) are still inside their warm-up. -/
theorem c3_counterexample_sma20_gone_from_returned_frame :
    20 ≤ (exBarsN 20).len ∧
    (calculate_all_indicators (exBarsN 20)).map
      (fun g => (g.getCol "SMA_20").map (fun s => oget s 19)) =
      Except.ok (Except.ok none) := by
  constructor
  · simp [exBarsN, mkBarFrame, exDatesN, Frame.len]
  · rw [show exBarsN 20 = mkBarFrame (exDatesN 20) (List.replicate 20 10)
        (List.replicate 20 11) (List.replicate 20 9) (List.replicate 20 10)
        (List.replicate 20 100) from rfl,
      calc_mkBar_short _ _ _ _ _ _ (by simp)]
    rfl

/-- C3 amended: the per-indicator warm-up boundary holds for every
rolling-window indicator column as computed, before the final combined
drop — SMA_20 and WMA_20 (w = 20) are defined exactly from position 19
on, Tenkan_Sen (w = 9) from position 8, Kijun_Sen (w = 26) from
position 25, BB_Upper and BB_Lower (w = 20) from position 19, CCI_20
(w = 20) from position 19, and WILLR_14 (w = 14) from position 13, each
independently of all other indicators; TA-Lib's RSI, however, has
lookback 14, so the RSI column is defined from position 14 (not 13) on;
and the frame actually returned by `calculate_all_indicators` removes
every row before the combined warm-up boundary over all columns — on
fewer than 200 bars nothing at all remains. -/
theorem c3_amended_warmup_is_pre_drop (d : List String) (o h l c v : List ℚ) :
    ((augmentAll (mkBarFrame d o h l c v)).map (fun g => g.getCol "SMA_20") =
      Except.ok (Except.ok (SMA 20 (c.map some)))) ∧
    (∀ i, i < c.length → ((oget (SMA 20 (c.map some)) i).isSome ↔ 19 ≤ i)) ∧
    ((augmentAll (mkBarFrame d o h l c v)).map (fun g => g.getCol "Tenkan_Sen") =
      Except.ok (Except.ok (mapS (fun x => x / 2) (zipS (fun a b => a + b)
        (rollingS maxL 9 (h.map some)) (rollingS minL 9 (l.map some)))))) ∧
    (h.length = l.length → ∀ i, i < h.length →
      ((oget (mapS (fun x => x / 2) (zipS (fun a b => a + b)
        (rollingS maxL 9 (h.map some)) (rollingS minL 9 (l.map some)))) i).isSome ↔
        8 ≤ i)) ∧
    ((augmentAll (mkBarFrame d o h l c v)).map (fun g => g.getCol "WMA_20") =
      Except.ok (Except.ok (WMA 20 (c.map some)))) ∧
    (∀ i, i < c.length → ((oget (WMA 20 (c.map some)) i).isSome ↔ 19 ≤ i)) ∧
    ((augmentAll (mkBarFrame d o h l c v)).map (fun g => g.getCol "Kijun_Sen") =
      Except.ok (Except.ok (mapS (fun x => x / 2) (zipS (fun a b => a + b)
        (rollingS maxL 26 (h.map some)) (rollingS minL 26 (l.map some)))))) ∧
    (h.length = l.length → ∀ i, i < h.length →
      ((oget (mapS (fun x => x / 2) (zipS (fun a b => a + b)
        (rollingS maxL 26 (h.map some)) (rollingS minL 26 (l.map some)))) i).isSome ↔
        25 ≤ i)) ∧
    ((augmentAll (mkBarFrame d o h l c v)).map (fun g => g.getCol "BB_Upper") =
      Except.ok (Except.ok (BBANDS 20 2 2 (c.map some)).1)) ∧
    (∀ i, i < c.length →
      ((oget (BBANDS 20 2 2 (c.map some)).1 i).isSome ↔ 19 ≤ i)) ∧
    ((augmentAll (mkBarFrame d o h l c v)).map (fun g => g.getCol "BB_Lower") =
      Except.ok (Except.ok (BBANDS 20 2 2 (c.map some)).2)) ∧
    (∀ i, i < c.length →
      ((oget (BBANDS 20 2 2 (c.map some)).2 i).isSome ↔ 19 ≤ i)) ∧
    ((augmentAll (mkBarFrame d o h l c v)).map (fun g => g.getCol "CCI_20") =
      Except.ok (Except.ok (CCI 20 (h.map some) (l.map some) (c.map some)))) ∧
    (h.length = l.length → h.length = c.length → ∀ i, i < c.length →
      ((oget (CCI 20 (h.map some) (l.map some) (c.map some)) i).isSome ↔ 19 ≤ i)) ∧
    ((augmentAll (mkBarFrame d o h l c v)).map (fun g => g.getCol "WILLR_14") =
      Except.ok (Except.ok (WILLR 14 (h.map some) (l.map some) (c.map some)))) ∧
    (h.length = l.length → h.length = c.length → ∀ i, i < c.length →
      ((oget (WILLR 14 (h.map some) (l.map some) (c.map some)) i).isSome ↔
        13 ≤ i)) ∧
    ((augmentAll (mkBarFrame d o h l c v)).map (fun g => g.getCol "RSI") =
      Except.ok (Except.ok (RSI 14 (c.map some)))) ∧
    (∀ i, i < c.length → ((oget (RSI 14 (c.map some)) i).isSome ↔ 14 ≤ i)) ∧
    (c.length ≤ 199 →
      (calculate_all_indicators (mkBarFrame d o h l c v)).map Frame.len =
        Except.ok 0) := by
  refine ⟨?_, ?_, ?_, ?_, ?_, ?_, ?_, ?_, ?_, ?_, ?_, ?_, ?_, ?_, ?_, ?_, ?_, ?_, ?_⟩
  · rw [augment_mkBar, except_map_ok]
    rfl
  · intro i hi
    rw [SMA, isSome_rollingS_map_some meanL 20 (by decide) c i]
    simp [hi]
    try omega
  · rw [augment_mkBar, except_map_ok]
    rfl
  · intro hhl i hi
    rw [oget_mapS, optIsSome_map, oget_zipS, isSome_opt_comb,
      isSome_rollingS_map_some maxL 9 (by decide) h i,
      isSome_rollingS_map_some minL 9 (by decide) l i]
    simp [hi, hhl ▸ hi]
    try omega
  · rw [augment_mkBar, except_map_ok]
    rfl
  · intro i hi
    rw [WMA, isSome_rollingS_map_some wmaL 20 (by decide) c i]
    simp [hi]
    try omega
  · rw [augment_mkBar, except_map_ok]
    rfl
  · intro hhl i hi
    rw [oget_mapS, optIsSome_map, oget_zipS, isSome_opt_comb,
      isSome_rollingS_map_some maxL 26 (by decide) h i,
      isSome_rollingS_map_some minL 26 (by decide) l i]
    simp [hi, hhl ▸ hi]
    try omega
  · rw [augment_mkBar, except_map_ok]
    rfl
  · intro i hi
    rw [(isSome_bbands c i).1]
    simp [hi]
    try omega
  · rw [augment_mkBar, except_map_ok]
    rfl
  · intro i hi
    rw [(isSome_bbands c i).2]
    simp [hi]
    try omega
  · rw [augment_mkBar, except_map_ok]
    rfl
  · intro hhl hhc i hi
    rw [isSome_cci h l c hhl hhc i]
    simp [hi]
    try omega
  · rw [augment_mkBar, except_map_ok]
    rfl
  · intro hhl hhc i hi
    rw [isSome_willr 14 (by decide) h l c hhl hhc i]
    simp [hi]
    try omega
  · rw [augment_mkBar, except_map_ok]
    rfl
  · intro i hi
    rw [RSI, oget_range_map]
    rw [List.length_map]
    rw [if_pos hi]
    by_cases h14 : i < 14
    · simp [h14]
      try omega
    · simp [h14]
      try omega
  · intro hlen
    rw [calc_mkBar_short d o h l c v hlen]
    rfl

/-- C3 amended, witness: on a concrete 20-bar close column, SMA_20 is
defined at position 19 before the combined drop. -/
theorem c3_amended_warmup_witness :
    (oget (SMA 20 ((List.replicate 20 (10 : ℚ)).map some)) 19).isSome = true := by
  have h := (c3_amended_warmup_is_pre_drop (exDatesN 20) (List.replicate 20 10)
    (List.replicate 20 11) (List.replicate 20 9) (List.replicate 20 10)
    (List.replicate 20 100)).2.1 19 (by simp)
  exact h.mpr (by norm_num)

/-- C8: in a two-instrument batch where the first instrument has data
and the second returns not-available, the whole batch crashes: scanning
the first instrument raises the `MFI_14` key error, which propagates out
of `run_analysis_and_store` before the second instrument is even
fetched — contradicting "events only for the first, a warning for the
second, and no crash of the batch". -/
theorem c8_two_instrument_batch_crashes :
    run_analysis_and_store exFetch ["GOOD", "MISSING"] = Except.error "MFI_14" := by
  have h0 : exFetch "GOOD" = some exBars5 := rfl
  have hcalc : calculate_all_indicators exBars5 =
      Except.ok (dropna (augFrame exDates5 [10, 11, 12, 11, 10] [11, 12, 13, 12, 11]
        [9, 10, 11, 10, 9] [10, 11, 12, 11, 10] [100, 110, 120, 110, 100])) :=
    calc_mkBar _ _ _ _ _ _
  have hscan : find_indicator_occurrences
      (dropna (augFrame exDates5 [10, 11, 12, 11, 10] [11, 12, 13, 12, 11]
        [9, 10, 11, 10, 9] [10, 11, 12, 11, 10] [100, 110, 120, 110, 100])) "GOOD" =
      Except.error "MFI_14" :=
    scanner_missing_mfi _ _ (by rw [dropna_names, augFrame_names])
  rw [run_analysis_and_store]
  simp only [List.foldlM_cons, h0]
  rw [if_neg (by decide : ¬(exBars5.len = 0))]
  simp only [hcalc, except_bind_ok, hscan, except_bind_error]

/-! ### The Result Aggregator's ordering contract -/

theorem eventLe_trans : ∀ (a b c : Event),
    eventLe a b = true → eventLe b c = true → eventLe a c = true := by
  intro a b c hab hbc
  simp only [eventLe, Bool.or_eq_true, Bool.and_eq_true, decide_eq_true_eq] at *
  rcases hab with h1 | ⟨h1, h2⟩ <;> rcases hbc with h3 | ⟨h3, h4⟩
  · exact Or.inl (lt_trans h3 h1)
  · exact Or.inl (by rw [← h3]; exact h1)
  · exact Or.inl (by rw [h1]; exact h3)
  · exact Or.inr ⟨h1.trans h3, le_trans h4 h2⟩

theorem eventLe_total : ∀ (a b : Event), (eventLe a b || eventLe b a) = true := by
  intro a b
  simp only [eventLe, Bool.or_eq_true, Bool.and_eq_true, decide_eq_true_eq]
  rcases lt_trichotomy a.occurenceDate b.occurenceDate with h | h | h
  · exact Or.inr (Or.inl h)
  · rcases le_total b.tickerName a.tickerName with ht | ht
    · exact Or.inl (Or.inr ⟨h, ht⟩)
    · exact Or.inr (Or.inr ⟨h.symm, ht⟩)
  · exact Or.inl (Or.inl h)

/-- C4: the Result Aggregator's output is a permutation of the merged
per-instrument event lists (no event dropped or merged away), it is
sorted by occurrence date descending with ties broken by instrument
identifier descending, and consequently any two output events with equal
dates appear in descending instrument-identifier order. -/
theorem c4_aggregator_sorts_desc_without_loss (ls : List (List Event)) :
    (aggregateResults ls.flatten).Perm ls.flatten ∧
    (aggregateResults ls.flatten).Pairwise (fun a b =>
      b.occurenceDate < a.occurenceDate ∨
      (a.occurenceDate = b.occurenceDate ∧ b.tickerName ≤ a.tickerName)) ∧
    (aggregateResults ls.flatten).Pairwise (fun a b =>
      a.occurenceDate = b.occurenceDate → b.tickerName ≤ a.tickerName) := by
  have hperm : (aggregateResults ls.flatten).Perm ls.flatten :=
    List.mergeSort_perm ls.flatten eventLe
  have hsorted := @List.sorted_mergeSort Event eventLe
    eventLe_trans eventLe_total ls.flatten
  have hprop : (aggregateResults ls.flatten).Pairwise (fun a b =>
      b.occurenceDate < a.occurenceDate ∨
      (a.occurenceDate = b.occurenceDate ∧ b.tickerName ≤ a.tickerName)) := by
    refine hsorted.imp (fun hab => ?_)
    simpa only [eventLe, Bool.or_eq_true, Bool.and_eq_true, decide_eq_true_eq]
      using hab
  refine ⟨hperm, hprop, hprop.imp (fun hab hd => ?_)⟩
  rcases hab with hlt | hc
  · exact absurd (hd ▸ hlt) (lt_irrefl _)
  · exact hc.2

/-- C4, witness: a concrete three-event aggregation loses no event. -/
theorem c4_aggregator_witness :
    (aggregateResults [[Event.mk "A" "sig" "2024-01-02",
        Event.mk "B" "sig" "2024-01-01", Event.mk "C" "sig" "2024-01-02"]].flatten).Perm
      [[Event.mk "A" "sig" "2024-01-02", Event.mk "B" "sig" "2024-01-01",
        Event.mk "C" "sig" "2024-01-02"]].flatten :=
  (c4_aggregator_sorts_desc_without_loss [[Event.mk "A" "sig" "2024-01-02",
    Event.mk "B" "sig" "2024-01-01", Event.mk "C" "sig" "2024-01-02"]]).1

/-! ### Crossing-predicate lemmas -/

theorem oGT_oLT_false {x y : Option ℚ} (h : oGT x y = true) : oLT x y = false := by
  cases x <;> cases y <;> simp [oGT, oLT] at h ⊢
  exact le_of_lt h

theorem oLT_oGT_false {x y : Option ℚ} (h : oLT x y = true) : oGT x y = false := by
  cases x <;> cases y <;> simp [oGT, oLT] at h ⊢
  exact le_of_lt h

/-- C6: the series-crossing predicate pair is antisymmetric — the
bullish form firing at `i` forces the bearish form false at `i` (and
conversely); and a flat tie at `i - 1` satisfies both non-strict
previous-bar conditions, so at index `i` each form fires exactly when
the current bar strictly crosses; if the tie persists at `i`, neither
form fires. -/
theorem c6_series_crossing_antisymmetric (a b : Series) (i : ℕ) :
    (crossUp a b i = true → crossDown a b i = false) ∧
    (crossDown a b i = true → crossUp a b i = false) ∧
    (∀ x, oget (shiftS 1 a) i = some x → oget (shiftS 1 b) i = some x →
      ((crossUp a b i = true ↔ oGT (oget a i) (oget b i) = true) ∧
       (crossDown a b i = true ↔ oLT (oget a i) (oget b i) = true) ∧
       (∀ y, oget a i = some y → oget b i = some y →
         crossUp a b i = false ∧ crossDown a b i = false))) := by
  refine ⟨fun h => ?_, fun h => ?_, fun x hxa hxb => ⟨?_, ?_, fun y hya hyb => ⟨?_, ?_⟩⟩⟩
  · rw [crossUp, Bool.and_eq_true] at h
    rw [crossDown, oGT_oLT_false h.2, Bool.and_false]
  · rw [crossDown, Bool.and_eq_true] at h
    rw [crossUp, oLT_oGT_false h.2, Bool.and_false]
  · rw [crossUp, hxa, hxb]
    simp [oLE]
  · rw [crossDown, hxa, hxb]
    simp [oGE]
  · rw [crossUp, hya, hyb]
    simp [oGT]
  · rw [crossDown, hya, hyb]
    simp [oLT]

/-- C6, witness: a concrete bullish EMA-style crossing at index 1 does
not also fire the bearish form. -/
theorem c6_series_crossing_witness :
    crossDown [some 1, some 3] [some 2, some 2] 1 = false :=
  (c6_series_crossing_antisymmetric [some 1, some 3] [some 2, some 2] 1).1 (by decide)

/-! ### Undefined-value propagation through the conditions -/

@[simp] theorem oLT_none_left (y : Option ℚ) : oLT none y = false := rfl

@[simp] theorem oLT_none_right (x : Option ℚ) : oLT x none = false := by
  cases x <;> rfl

@[simp] theorem oLE_none_left (y : Option ℚ) : oLE none y = false := rfl

@[simp] theorem oLE_none_right (x : Option ℚ) : oLE x none = false := by
  cases x <;> rfl

@[simp] theorem oGT_none_left (y : Option ℚ) : oGT none y = false := rfl

@[simp] theorem oGT_none_right (x : Option ℚ) : oGT x none = false := by
  cases x <;> rfl

@[simp] theorem oGE_none_left (y : Option ℚ) : oGE none y = false := rfl

@[simp] theorem oGE_none_right (x : Option ℚ) : oGE x none = false := by
  cases x <;> rfl

@[simp] theorem oEQ_none_left (y : Option ℚ) : oEQ none y = false := rfl

@[simp] theorem oEQ_none_right (x : Option ℚ) : oEQ x none = false := by
  cases x <;> rfl

/-- `shift(1)` is NaN at index `i` whenever the previous position is NaN
or there is no previous position. -/
theorem oget_shiftS_one_none {s : Series} {i : ℕ}
    (h : oget s (i - 1) = none ∨ i = 0) :
    oget (shiftS 1 s) i = none := by
  rw [oget_shiftS]
  rcases h with h | h
  · by_cases h1 : i < 1 ∨ s.length ≤ i
    · rw [if_pos h1]
    · rw [if_neg h1]
      exact h
  · subst h
    simp

/-- C7 counterexample: in the Ichimoku bullish condition the cloud
bottom is a skipna row-wise minimum of the two spans, so with
Senkou_Span_A undefined at the evaluated index (and every other required
value defined) the predicate still fires, and the scanner emits an
occurrence event for that index — the claim demands the predicate be
false whenever any required indicator value at `i` or `i - 1` is
undefined. -/
theorem c7_counterexample_cloud_skipna_fires :
    condition_4a [some 1, some 5] [some 2, some 3] [none, none] [some 0, some 0]
      [some 10, some 10] 1 = true ∧
    oget [none, none] 1 = none ∧
    eventsOf ⟨["2024-01-01", "2024-01-02"], []⟩ "TCS"
      "Complex: Ichimoku Bullish Cross AND Price Above Cloud"
      (condition_4a [some 1, some 5] [some 2, some 3] [none, none] [some 0, some 0]
        [some 10, some 10]) =
      [⟨"TCS", "Complex: Ichimoku Bullish Cross AND Price Above Cloud",
        "2024-01-02"⟩] := by
  refine ⟨?_, rfl, ?_⟩ <;> rfl

/-- C7 amended: for every condition of the catalog, an undefined
required value at index `i` or `i - 1` (including the missing previous
value at `i = 0` and the rolling aggregates computed inside the
scanner) makes the condition false at `i` — except through the Ichimoku
cloud boundary, which is a skipna row-wise min/max of the two Senkou
spans: there a single undefined span is skipped, and only both spans
undefined together force the price-vs-cloud comparison false. -/
theorem c7_amended_undefined_is_false_except_cloud
    (rsi macd sig ema50 ema200 adx close bbLower bbUpper stK stD tenkan kijun
      spanA spanB sar atr mfi dema tema sma cci willr ultosc obv adosc trix
      kama natr typ : Series) (i : ℕ) :
    ((oget rsi (i - 1) = none ∨ oget rsi i = none ∨ oget macd (i - 1) = none ∨
        oget macd i = none ∨ oget sig (i - 1) = none ∨ oget sig i = none ∨
        i = 0) → condition_1a rsi macd sig i = false) ∧
    ((oget rsi (i - 1) = none ∨ oget rsi i = none ∨ oget macd (i - 1) = none ∨
        oget macd i = none ∨ oget sig (i - 1) = none ∨ oget sig i = none ∨
        i = 0) → condition_1b rsi macd sig i = false) ∧
    ((oget ema50 (i - 1) = none ∨ oget ema50 i = none ∨
        oget ema200 (i - 1) = none ∨ oget ema200 i = none ∨ oget adx i = none ∨
        i = 0) → condition_2a ema50 ema200 adx i = false) ∧
    ((oget ema50 (i - 1) = none ∨ oget ema50 i = none ∨
        oget ema200 (i - 1) = none ∨ oget ema200 i = none ∨ oget adx i = none ∨
        i = 0) → condition_2b ema50 ema200 adx i = false) ∧
    ((oget close i = none ∨ oget bbLower i = none ∨ oget stK (i - 1) = none ∨
        oget stK i = none ∨ oget stD (i - 1) = none ∨ oget stD i = none ∨
        i = 0) → condition_3a close bbLower stK stD i = false) ∧
    ((oget close i = none ∨ oget bbUpper i = none ∨ oget stK (i - 1) = none ∨
        oget stK i = none ∨ oget stD (i - 1) = none ∨ oget stD i = none ∨
        i = 0) → condition_3b close bbUpper stK stD i = false) ∧
    ((oget tenkan (i - 1) = none ∨ oget tenkan i = none ∨
        oget kijun (i - 1) = none ∨ oget kijun i = none ∨ oget close i = none ∨
        (oget spanA i = none ∧ oget spanB i = none) ∨ i = 0) →
      condition_4a tenkan kijun spanA spanB close i = false) ∧
    ((oget tenkan (i - 1) = none ∨ oget tenkan i = none ∨
        oget kijun (i - 1) = none ∨ oget kijun i = none ∨ oget close i = none ∨
        (oget spanA i = none ∧ oget spanB i = none) ∨ i = 0) →
      condition_4b tenkan kijun spanA spanB close i = false) ∧
    ((oget close (i - 1) = none ∨ oget close i = none ∨ oget sar (i - 1) = none ∨
        oget sar i = none ∨ oget ema50 i = none ∨ i = 0) →
      condition_5a close sar ema50 i = false) ∧
    ((oget close i = none ∨ oget ema50 i = none ∨ oget atr i = none ∨
        oget (rollingS meanL 100 atr) i = none) →
      condition_6a_atr close ema50 atr i = false) ∧
    ((oget rsi i = none ∨ oget mfi i = none) →
      condition_7a_mfi rsi mfi i = false) ∧
    ((oget dema (i - 1) = none ∨ oget dema i = none ∨ oget tema (i - 1) = none ∨
        oget tema i = none ∨ oget close i = none ∨ oget sma i = none ∨ i = 0) →
      condition_6a_ma dema tema close sma i = false) ∧
    ((oget cci i = none ∨ oget willr (i - 1) = none ∨ oget willr i = none ∨
        oget ultosc i = none ∨ i = 0) →
      condition_7a_mom cci willr ultosc i = false) ∧
    ((oget obv i = none ∨ oget atr i = none ∨ oget adosc i = none ∨
        oget (rollingS maxL 20 obv) i = none ∨
        oget (rollingS meanL 10 atr) i = none) →
      condition_8a obv atr adosc i = false) ∧
    ((oget stK (i - 1) = none ∨ oget stK i = none ∨ oget stD (i - 1) = none ∨
        oget stD i = none ∨ oget trix (i - 1) = none ∨ oget trix i = none ∨
        oget rsi i = none ∨ i = 0) →
      condition_9a stK stD trix rsi i = false) ∧
    ((oget close i = none ∨ oget kama i = none ∨ oget natr i = none ∨
        oget typ i = none ∨ oget sma i = none ∨
        oget (rollingS meanL 20 natr) i = none) →
      condition_10a close kama natr typ sma i = false) := by
  refine ⟨?_, ?_, ?_, ?_, ?_, ?_, ?_, ?_, ?_, ?_, ?_, ?_, ?_, ?_, ?_, ?_⟩
  · intro hc
    rcases hc with h | h | h | h | h | h | h <;>
      simp [condition_1a, exitAbove, crossUp, oget_shiftS_one_none, h]
  · intro hc
    rcases hc with h | h | h | h | h | h | h <;>
      simp [condition_1b, exitBelow, crossDown, oget_shiftS_one_none, h]
  · intro hc
    rcases hc with h | h | h | h | h | h <;>
      simp [condition_2a, crossUp, oget_shiftS_one_none, h]
  · intro hc
    rcases hc with h | h | h | h | h | h <;>
      simp [condition_2b, crossDown, oget_shiftS_one_none, h]
  · intro hc
    rcases hc with h | h | h | h | h | h | h <;>
      simp [condition_3a, crossUp, oget_shiftS_one_none, h]
  · intro hc
    rcases hc with h | h | h | h | h | h | h <;>
      simp [condition_3b, crossDown, oget_shiftS_one_none, h]
  · intro hc
    rcases hc with h | h | h | h | h | h | h <;>
      simp [condition_4a, crossUp, skMin, oget_shiftS_one_none, h]
  · intro hc
    rcases hc with h | h | h | h | h | h | h <;>
      simp [condition_4b, crossDown, skMax, oget_shiftS_one_none, h]
  · intro hc
    rcases hc with h | h | h | h | h | h <;>
      simp [condition_5a, crossUp, oget_shiftS_one_none, h]
  · intro hc
    rcases hc with h | h | h | h <;>
      simp [condition_6a_atr, h]
  · intro hc
    rcases hc with h | h <;>
      simp [condition_7a_mfi, h]
  · intro hc
    rcases hc with h | h | h | h | h | h | h <;>
      simp [condition_6a_ma, crossUp, oget_shiftS_one_none, h]
  · intro hc
    rcases hc with h | h | h | h | h <;>
      simp [condition_7a_mom, oget_shiftS_one_none, h]
  · intro hc
    rcases hc with h | h | h | h | h <;>
      simp [condition_8a, h]
  · intro hc
    rcases hc with h | h | h | h | h | h | h | h <;>
      simp [condition_9a, crossUp, oget_shiftS_one_none, h]
  · intro hc
    rcases hc with h | h | h | h | h | h <;>
      simp [condition_10a, h]

/-- C7 amended, witness: with RSI undefined at the previous bar (the
first scanned row), condition 1a is false at index 1. -/
theorem c7_amended_witness :
    condition_1a [none, some 50] [some 1, some 2] [some 1, some 1] 1 = false :=
  (c7_amended_undefined_is_false_except_cloud [none, some 50] [some 1, some 2]
    [some 1, some 1] [] [] [] [] [] [] [] [] [] [] [] [] [] [] [] [] [] [] []
    [] [] [] [] [] [] [] [] 1).1 (Or.inl rfl)

/-! ### Threshold-exit predicates: characterization and once-per-crossing -/

/-- The oversold-exit shape fires exactly on a defined previous value
strictly below the threshold followed by a defined current value at or
above it. -/
theorem exitAbove_iff (s : Series) (t : ℚ) (i : ℕ) :
    exitAbove s t i = true ↔
      ∃ p cu, oget (shiftS 1 s) i = some p ∧ oget s i = some cu ∧
        p < t ∧ t ≤ cu := by
  cases hx : oget (shiftS 1 s) i <;> cases hy : oget s i <;>
    simp [exitAbove, oLT, oGE, hx, hy]

/-- The overbought-exit shape, mirrored. -/
theorem exitBelow_iff (s : Series) (t : ℚ) (i : ℕ) :
    exitBelow s t i = true ↔
      ∃ p cu, oget (shiftS 1 s) i = some p ∧ oget s i = some cu ∧
        t < p ∧ cu ≤ t := by
  cases hx : oget (shiftS 1 s) i <;> cases hy : oget s i <;>
    simp [exitBelow, oGT, oLE, hx, hy]

/-- Staying on one side of the threshold over consecutive bars never
fires the oversold-exit shape. -/
theorem exitAbove_same_side (s : Series) (t : ℚ) (i : ℕ) (p cu : ℚ)
    (hp : oget (shiftS 1 s) i = some p) (hcu : oget s i = some cu)
    (hside : (p < t ∧ cu < t) ∨ (t ≤ p ∧ t ≤ cu)) :
    exitAbove s t i = false := by
  rcases hside with ⟨h1, h2⟩ | ⟨h1, h2⟩
  · simp [exitAbove, oLT, oGE, hp, hcu, h2.not_le]
  · simp [exitAbove, oLT, oGE, hp, hcu, h1.not_lt]

/-- Staying on one side of the threshold over consecutive bars never
fires the overbought-exit shape. -/
theorem exitBelow_same_side (s : Series) (t : ℚ) (i : ℕ) (p cu : ℚ)
    (hp : oget (shiftS 1 s) i = some p) (hcu : oget s i = some cu)
    (hside : (t < p ∧ t < cu) ∨ (p ≤ t ∧ cu ≤ t)) :
    exitBelow s t i = false := by
  rcases hside with ⟨h1, h2⟩ | ⟨h1, h2⟩
  · simp [exitBelow, oGT, oLE, hp, hcu, h2.not_le]
  · simp [exitBelow, oGT, oLE, hp, hcu, h1.not_lt]

/-- Over a monotone nondecreasing series that starts strictly below the
threshold and ends at or above it, the oversold-exit shape fires at
exactly one index. -/
theorem exitAbove_once (xs : List ℚ) (t a z : ℚ)
    (hchain : List.Chain' (· ≤ ·) xs) (ha : xs.head? = some a) (hat : a < t)
    (hz : xs.getLast? = some z) (hzt : t ≤ z) :
    ∃! i, exitAbove (xs.map some) t i = true := by
  have hne : xs ≠ [] := by
    intro h
    rw [h] at ha
    simp at ha
  have hlen0 : 0 < xs.length := List.length_pos.mpr hne
  have hpw : xs.Pairwise (· ≤ ·) := List.chain'_iff_pairwise.mp hchain
  have hmono : ∀ i j (hi : i < xs.length) (hj : j < xs.length), i ≤ j →
      xs[i] ≤ xs[j] := by
    intro i j hi hj hij
    rcases Nat.lt_or_ge i j with hlt | hge
    · exact List.pairwise_iff_getElem.mp hpw i j hi hj hlt
    · have : i = j := le_antisymm hij hge
      subst this
      exact le_refl _
  set k := List.findIdx (fun x => decide (t ≤ x)) xs with hkdef
  have hzmem : z ∈ xs := List.mem_of_mem_getLast? hz
  have hk : k < xs.length :=
    List.findIdx_lt_length_of_exists ⟨z, hzmem, by simp [hzt]⟩
  have hPk : t ≤ xs[k] := by
    have := @List.findIdx_getElem ℚ (fun x => decide (t ≤ x)) xs hk
    simpa using this
  have hbefore : ∀ j (hj : j < xs.length), j < k → ¬ (t ≤ xs[j]) := by
    intro j hj hjk ht
    have hf := List.not_of_lt_findIdx hjk
    rw [decide_eq_false_iff_not] at hf
    exact hf ht
  have hx0 : xs[0] = a := by
    cases xs with
    | nil => simp at ha
    | cons b rest =>
      simp only [List.head?_cons, Option.some.injEq] at ha
      simpa using ha
  have hPkq : ∀ x, xs[k]? = some x → t ≤ x := by
    intro x hx
    rw [List.getElem?_eq_getElem hk] at hx
    exact (Option.some.inj hx) ▸ hPk
  have hk0 : 0 < k := by
    apply Nat.pos_of_ne_zero
    intro h0
    have : t ≤ a := hPkq a (by rw [h0, List.getElem?_eq_getElem hlen0, hx0])
    exact hat.not_le this
  refine ⟨k, ?_, ?_⟩
  · show exitAbove (List.map some xs) t k = true
    rw [exitAbove_iff]
    refine ⟨xs[k - 1], xs[k], ?_, ?_, ?_, hPk⟩
    · rw [oget_shiftS]
      rw [if_neg (by rw [List.length_map]; omega)]
      rw [oget_map_some]
      exact List.getElem?_eq_getElem (by omega)
    · rw [oget_map_some]
      exact List.getElem?_eq_getElem hk
    · have := hbefore (k - 1) (by omega) (by omega)
      exact lt_of_not_le this
  · intro j hj
    rw [exitAbove_iff] at hj
    obtain ⟨p, cu, hp, hcu, hpt, htc⟩ := hj
    rw [oget_shiftS] at hp
    by_cases hcond : j < 1 ∨ (List.map some xs).length ≤ j
    · rw [if_pos hcond] at hp
      cases hp
    · rw [if_neg hcond] at hp
      push_neg at hcond
      rw [List.length_map] at hcond
      have hjlen : j < xs.length := hcond.2
      have hj1 : j - 1 < xs.length := by omega
      rw [oget_map_some, List.getElem?_eq_getElem hj1] at hp
      rw [oget_map_some, List.getElem?_eq_getElem hjlen] at hcu
      have hpe : xs[j - 1] = p := Option.some.inj hp
      have hce : xs[j] = cu := Option.some.inj hcu
      have hkj : k ≤ j := by
        by_contra hlt
        push_neg at hlt
        exact hbefore j hjlen hlt (hce ▸ htc)
      have hjk : j ≤ k := by
        by_contra hlt
        push_neg at hlt
        have hk1 : k ≤ j - 1 := by omega
        have hle : xs[k] ≤ xs[j - 1] := hmono k (j - 1) hk hj1 hk1
        have htp : t ≤ xs[j - 1] := le_trans hPk hle
        rw [hpe] at htp
        exact absurd hpt htp.not_lt
      omega

theorem shiftS_mapS (k : ℕ) (f : ℚ → ℚ) (s : Series) :
    shiftS k (mapS f s) = mapS f (shiftS k s) := by
  unfold shiftS mapS
  rw [List.length_map, List.map_map]
  refine List.map_congr_left (fun i _ => ?_)
  by_cases h : i < k
  · simp [h]
  · simp only [Function.comp, h, if_false]
    rw [show oget (List.map (Option.map f) s) (i - k) =
        oget (mapS f s) (i - k) from rfl, oget_mapS]

/-- The overbought-exit shape on a raw series is the oversold-exit shape
on the negated series against the negated threshold. -/
theorem exitBelow_as_exitAbove (xs : List ℚ) (t : ℚ) (i : ℕ) :
    exitBelow (xs.map some) t i =
      exitAbove ((xs.map (fun x => -x)).map some) (-t) i := by
  have hms : (xs.map (fun x => -x)).map some = mapS (fun x => -x) (xs.map some) := by
    unfold mapS
    rw [List.map_map, List.map_map]
    exact List.map_congr_left (fun x _ => rfl)
  rw [hms]
  unfold exitBelow exitAbove
  rw [shiftS_mapS, oget_mapS, oget_mapS]
  cases hx : oget (shiftS 1 (xs.map some)) i <;>
    cases hy : oget (xs.map some) i <;>
      simp [oLT, oGT, oLE, oGE, neg_lt_neg_iff, neg_le_neg_iff]

/-- Over a monotone nonincreasing series that starts strictly above the
threshold and ends at or below it, the overbought-exit shape fires at
exactly one index. -/
theorem exitBelow_once (xs : List ℚ) (t a z : ℚ)
    (hchain : List.Chain' (· ≥ ·) xs) (ha : xs.head? = some a) (hat : t < a)
    (hz : xs.getLast? = some z) (hzt : z ≤ t) :
    ∃! i, exitBelow (xs.map some) t i = true := by
  have hchain2 : List.Chain' (· ≤ ·) (xs.map (fun x => -x)) := by
    rw [List.chain'_map]
    exact hchain.imp (fun x y h => neg_le_neg h)
  have ha2 : (xs.map (fun x => -x)).head? = some (-a) := by
    rw [List.head?_map, ha]
    rfl
  have hz2 : (xs.map (fun x => -x)).getLast? = some (-z) := by
    rw [List.getLast?_map, hz]
    rfl
  obtain ⟨i0, hi0, huniq⟩ := exitAbove_once (xs.map (fun x => -x)) (-t) (-a) (-z)
    hchain2 ha2 (neg_lt_neg hat) hz2 (neg_le_neg hzt)
  refine ⟨i0, ?_, fun j hj => ?_⟩
  · show exitBelow (List.map some xs) t i0 = true
    rw [exitBelow_as_exitAbove]
    exact hi0
  · refine huniq j ?_
    show exitAbove ((xs.map (fun x => -x)).map some) (-t) j = true
    rw [← exitBelow_as_exitAbove]
    exact hj

/-- C5: the threshold-crossing "exit" predicates fire exactly at the
indices where the monitored value transitions sides of the threshold
between consecutive bars (with undefined values never firing), are false
wherever the value stays on one side over consecutive bars, and over a
monotone series crossing the threshold once they fire at exactly one
index. -/
theorem c5_threshold_exit_fires_once_per_crossing :
    (∀ (s : Series) (t : ℚ) (i : ℕ),
      (exitAbove s t i = true ↔ ∃ p cu, oget (shiftS 1 s) i = some p ∧
        oget s i = some cu ∧ p < t ∧ t ≤ cu) ∧
      (exitBelow s t i = true ↔ ∃ p cu, oget (shiftS 1 s) i = some p ∧
        oget s i = some cu ∧ t < p ∧ cu ≤ t) ∧
      (∀ p cu, oget (shiftS 1 s) i = some p → oget s i = some cu →
        (((p < t ∧ cu < t) ∨ (t ≤ p ∧ t ≤ cu)) → exitAbove s t i = false) ∧
        (((t < p ∧ t < cu) ∨ (p ≤ t ∧ cu ≤ t)) → exitBelow s t i = false))) ∧
    (∀ (xs : List ℚ) (t a z : ℚ), List.Chain' (· ≤ ·) xs →
      xs.head? = some a → a < t → xs.getLast? = some z → t ≤ z →
      ∃! i, exitAbove (xs.map some) t i = true) ∧
    (∀ (xs : List ℚ) (t a z : ℚ), List.Chain' (· ≥ ·) xs →
      xs.head? = some a → t < a → xs.getLast? = some z → z ≤ t →
      ∃! i, exitBelow (xs.map some) t i = true) :=
  ⟨fun s t i => ⟨exitAbove_iff s t i, exitBelow_iff s t i,
     fun p cu hp hcu => ⟨exitAbove_same_side s t i p cu hp hcu,
       exitBelow_same_side s t i p cu hp hcu⟩⟩,
   exitAbove_once, exitBelow_once⟩

/-- C5, witness: over the monotone series 25, 28, 31, 35 the oversold
exit against threshold 30 fires exactly once. -/
theorem c5_threshold_exit_witness :
    ∃! i, exitAbove ([25, 28, 31, 35].map some) 30 i = true :=
  c5_threshold_exit_fires_once_per_crossing.2.1 [25, 28, 31, 35] 30 25 35
    (by norm_num) rfl (by norm_num) rfl (by norm_num)

end RoadToRunway
